import Mathlib

/-!
DrosoGen `NucleusAgent`: force-based mechanics of a sphere-chain nucleus.

A shallow embedding of `src/Agents/NucleusAgent.h`.

Conventions of the embedding

* `FLOAT` (and `float`) values are elements of a linearly ordered field `K`; rounding is not
  modelled.  All definitions are computable for a computable `K` (for instance `ℚ`); theorems that
  need the exponential or the square root are stated over `ℝ` with `Real.exp` and `Real.sqrt`
  supplied for `std::exp` and `std::sqrt`.
* C arrays are total functions on `Nat`; the number of valid cells is kept next to them.
* `accels` and `velocities` are ONE buffer of `2 * noOfSpheres` cells
  (`velocities = accels + shape.noOfSpheres` in the constructor), and the embedding keeps that
  layout: `velocities[i]` is cell `noOfSpheres + i` of the buffer.
* `long` hints are `Int`.  An array read at a hint uses the hint's value as a natural number;
  a read at a negative hint is undefined behaviour in C++.
-/

set_option linter.unusedSectionVars false

namespace DrosoGen

/-! ## Vectors -/

/-- Modelled from the spec: the three-component vector `Vector3d<FLOAT>` of `util/Vector3d.h`,
a header that is not among the sources; only its interface as used by `NucleusAgent` is given. -/
@[ext] structure Vector3d (K : Type) where
  x : K
  y : K
  z : K

namespace Vector3d

variable {K : Type} [LinearOrderedField K]

instance : Zero (Vector3d K) := ⟨⟨0, 0, 0⟩⟩
instance : Add (Vector3d K) := ⟨fun a b => ⟨a.x + b.x, a.y + b.y, a.z + b.z⟩⟩
instance : Neg (Vector3d K) := ⟨fun a => ⟨-a.x, -a.y, -a.z⟩⟩
instance : Sub (Vector3d K) := ⟨fun a b => ⟨a.x - b.x, a.y - b.y, a.z - b.z⟩⟩
instance : SMul K (Vector3d K) := ⟨fun c a => ⟨c * a.x, c * a.y, c * a.z⟩⟩

instance [DecidableEq K] : DecidableEq (Vector3d K) := fun a b =>
  decidable_of_iff (a.x = b.x ∧ a.y = b.y ∧ a.z = b.z)
    ⟨fun h => Vector3d.ext h.1 h.2.1 h.2.2, fun h => by subst h; exact ⟨rfl, rfl, rfl⟩⟩

instance : AddCommGroup (Vector3d K) where
  add_assoc a b c := Vector3d.ext (add_assoc _ _ _) (add_assoc _ _ _) (add_assoc _ _ _)
  zero_add a := Vector3d.ext (zero_add _) (zero_add _) (zero_add _)
  add_zero a := Vector3d.ext (add_zero _) (add_zero _) (add_zero _)
  add_comm a b := Vector3d.ext (add_comm _ _) (add_comm _ _) (add_comm _ _)
  neg_add_cancel a :=
    Vector3d.ext (neg_add_cancel _) (neg_add_cancel _) (neg_add_cancel _)
  sub_eq_add_neg a b :=
    Vector3d.ext (sub_eq_add_neg _ _) (sub_eq_add_neg _ _) (sub_eq_add_neg _ _)
  nsmul := nsmulRec
  zsmul := zsmulRec

/-- The assignment `v = c` of a scalar: every component becomes `c` (`accels[i] = 0`). -/
def ofScalar (c : K) : Vector3d K := ⟨c, c, c⟩

/-- The operator `v /= c`: every component is divided by `c`. -/
def divScalar (a : Vector3d K) (c : K) : Vector3d K := ⟨a.x / c, a.y / c, a.z / c⟩

/-- The function `dotProduct(a,b)`. -/
def dotProduct (a b : Vector3d K) : K := a.x * b.x + a.y * b.y + a.z * b.z

/-- The method `len2()`: the squared Euclidean length. -/
def len2 (a : Vector3d K) : K := a.x * a.x + a.y * a.y + a.z * a.z

/-- The method `len()`: the Euclidean length, with `std::sqrt` supplied as `fsqrt`. -/
def len (fsqrt : K → K) (a : Vector3d K) : K := fsqrt (len2 a)

/-- Modelled from the spec: `changeToUnitOrZero()` of `util/Vector3d.h`.  A vector of non-zero
length is divided by its length; a zero-length vector stays the zero vector. -/
def changeToUnitOrZero (fsqrt : K → K) (a : Vector3d K) : Vector3d K :=
  if 0 < len2 a then divScalar a (fsqrt (len2 a)) else a

end Vector3d

/-! ## Loops -/

/-- The counted loop `for (int i=0; i < n; ++i) body`: runs `body 0`, `body 1`, ..., `body (n-1)`
in this order on the threaded state. -/
def forLoop {σ : Type} : Nat → (Nat → σ → σ) → σ → σ
  | 0, _, s => s
  | k + 1, body, s => body k (forLoop k body s)

/-! ## Data model -/

variable {K : Type} [LinearOrderedField K]

/-- The type `ForceName` (`const char*`) of a force's label. -/
abbrev ForceName := String

def ftype_s2s : ForceName := "sphere-sphere"
def ftype_drive : ForceName := "desired movement"
def ftype_friction : ForceName := "friction"
def ftype_repulsive : ForceName := "repulsive"
def ftype_body : ForceName := "no overlap (body)"
def ftype_slide : ForceName := "no sliding"
def ftype_hinter : ForceName := "sphere-hinter"

/-- The constant `fstrength_body_scale = 0.4`. -/
def fstrength_body_scale : K := 4 / 10
/-- The constant `fstrength_overlap_scale = 0.2`. -/
def fstrength_overlap_scale : K := 2 / 10
/-- The constant `fstrength_overlap_level = 0.1`. -/
def fstrength_overlap_level : K := 1 / 10
/-- The constant `fstrength_overlap_depth = 0.5`. -/
def fstrength_overlap_depth : K := 5 / 10
/-- The constant `fstrength_rep_scale = 0.6`. -/
def fstrength_rep_scale : K := 6 / 10
/-- The constant `fstrength_slide_scale = 1.0`. -/
def fstrength_slide_scale : K := 1
/-- The constant `fstrength_hinter_scale = 0.25`. -/
def fstrength_hinter_scale : K := 25 / 100

/-- Modelled from the spec: `ForceVector3d<FLOAT>` of `util/Vector3d.h`, an entry of the force
ledger: a vector together with its origin point `base`, the index `hint` of the sphere it acts on
and its label `type`. -/
structure ForceVector3d (K : Type) extends Vector3d K where
  base : Vector3d K
  hint : Int
  type : ForceName

/-- Modelled from the spec: `ProximityPair` of `Geometries/Geometry.h`: signed distance, local and
other surface point, local and other sphere index, and the reference `callerHint` to the opposing
agent.  The only use of `callerHint` is `getVelocityOfSphere` on the agent it points to, so the
reference is represented by that read-only accessor. -/
structure ProximityPair (K : Type) where
  localPos : Vector3d K
  otherPos : Vector3d K
  distance : K
  localHint : Int
  otherHint : Int
  callerHint : Int → Vector3d K

/-- Modelled from the spec: the axis-aligned bounding box of `Geometries/Geometry.h`. -/
structure AxisAlignedBoundingBox (K : Type) where
  minCorner : Vector3d K
  maxCorner : Vector3d K

/-- Modelled from the spec: the sphere chain `Spheres` of `Geometries/Spheres.h`: the (constant)
number of spheres, their centres and radii, and the cached bounding box (absent for an empty
chain). -/
structure Spheres (K : Type) where
  noOfSpheres : Nat
  centres : Nat → Vector3d K
  radii : Nat → K
  AABB : Option (AxisAlignedBoundingBox K)

/-- The box around sphere `i` of a chain. -/
def Spheres.sphereBox (g : Spheres K) (i : Nat) : AxisAlignedBoundingBox K :=
  { minCorner := g.centres i - Vector3d.ofScalar (g.radii i)
    maxCorner := g.centres i + Vector3d.ofScalar (g.radii i) }

/-- The smallest box that holds two boxes. -/
def AxisAlignedBoundingBox.join (a b : AxisAlignedBoundingBox K) : AxisAlignedBoundingBox K :=
  { minCorner := ⟨min a.minCorner.x b.minCorner.x, min a.minCorner.y b.minCorner.y,
                  min a.minCorner.z b.minCorner.z⟩
    maxCorner := ⟨max a.maxCorner.x b.maxCorner.x, max a.maxCorner.y b.maxCorner.y,
                  max a.maxCorner.z b.maxCorner.z⟩ }

/-- Modelled from the spec: `Geometry::updateOwnAABB()`, which recomputes the axis-aligned box
enclosing all spheres of the chain. -/
def Spheres.updateOwnAABB (g : Spheres K) : Spheres K :=
  let box : Option (AxisAlignedBoundingBox K) :=
    forLoop g.noOfSpheres
      (fun i b => match b with
        | none => some (g.sphereBox i)
        | some b => some (b.join (g.sphereBox i))) none
  { g with AABB := box }

/-- A nearby agent as phase 3 sees it through `ShadowAgent`: its type string, its read-only
velocity accessor, and the proximity pairs that the external `geometry.getDistance` appends for
its geometry. -/
structure ShadowAgent (K : Type) where
  agentType : String
  getVelocityOfSphere : Int → Vector3d K
  getDistance : List (ProximityPair K)

/-- The state of a `NucleusAgent`.  `accels` is the joint buffer of `2 * noOfSpheres` cells that
the constructor allocates: cells `0 .. noOfSpheres-1` are `accels[]`, cells
`noOfSpheres .. 2*noOfSpheres-1` are `velocities[]`. -/
structure NucleusAgent (K : Type) where
  currTime : K
  incrTime : K
  velocity_CurrentlyDesired : Vector3d K
  velocity_PersistenceTime : K
  geometryAlias : Spheres K
  futureGeometry : Spheres K
  cytoplasmWidth : K
  ignoreDistance : K
  proximityPairs_toNuclei : List (ProximityPair K)
  proximityPairs_toYolk : List (ProximityPair K)
  proximityPairs_tracks : List (ProximityPair K)
  forces : List (ForceVector3d K)
  accels : Nat → Vector3d K
  weights : Nat → K

namespace NucleusAgent

/-- The array `velocities[]`: the pointer `accels + shape.noOfSpheres`. -/
def velocities (s : NucleusAgent K) (i : Nat) : Vector3d K :=
  s.accels (s.futureGeometry.noOfSpheres + i)

/-- The assignment `velocities[i] = v`. -/
def setVelocity (s : NucleusAgent K) (i : Nat) (v : Vector3d K) : NucleusAgent K :=
  { s with accels := Function.update s.accels (s.futureGeometry.noOfSpheres + i) v }

/-- The assignment `accels[i] = a` for a loop index `i`. -/
def setAccel (s : NucleusAgent K) (i : Nat) (a : Vector3d K) : NucleusAgent K :=
  { s with accels := Function.update s.accels i a }

/-- The assignment `futureGeometry.centres[i] = c`. -/
def setCentre (s : NucleusAgent K) (i : Nat) (c : Vector3d K) : NucleusAgent K :=
  { s with futureGeometry :=
      { s.futureGeometry with centres := Function.update s.futureGeometry.centres i c } }

/-- The statement `accels[f.hint] += f` of the accumulation loop.  The hint is a `long` and is not
checked: a hint inside the allocated buffer (`0 <= hint < 2*noOfSpheres`) updates that cell, which
for `hint >= noOfSpheres` is a cell of `velocities[]`.  A hint outside the buffer is undefined
behaviour in C++; the embedding leaves the buffer as it is. -/
def accumulate (s : NucleusAgent K) (f : ForceVector3d K) : NucleusAgent K :=
  if 0 ≤ f.hint ∧ f.hint < 2 * (s.futureGeometry.noOfSpheres : Int) then
    { s with accels :=
        Function.update s.accels f.hint.toNat (s.accels f.hint.toNat + f.toVector3d) }
  else s

/-- The body of the integration loop for sphere `i`. -/
def integrateSphere (i : Nat) (s : NucleusAgent K) : NucleusAgent K :=
  -- accels[i] /= weights[i];
  let s := s.setAccel i ((s.accels i).divScalar (s.weights i))
  -- velocities[i] += (FLOAT)incrTime * accels[i];
  let s := s.setVelocity i (s.velocities i + s.incrTime • s.accels i)
  -- futureGeometry.centres[i] += (FLOAT)incrTime * velocities[i];
  s.setCentre i (s.futureGeometry.centres i + s.incrTime • s.velocities i)

/-- The method `NucleusAgent::adjustGeometryByForces`. -/
def adjustGeometryByForces (s : NucleusAgent K) : NucleusAgent K :=
  -- for (i < noOfSpheres) accels[i] = 0;
  let s := forLoop s.futureGeometry.noOfSpheres (fun i s => s.setAccel i (Vector3d.ofScalar 0)) s
  -- for (f : forces) accels[f.hint] += f;
  let s := s.forces.foldl accumulate s
  -- for (i < noOfSpheres) { a = F/m; v += dt*a; centre += dt*v }
  let s := forLoop s.futureGeometry.noOfSpheres integrateSphere s
  -- futureGeometry.Geometry::updateOwnAABB();
  let s := { s with futureGeometry := s.futureGeometry.updateOwnAABB }
  -- forces.clear();
  { s with forces := [] }

/-- The call `forces.emplace_back(...)`. -/
def emplace_back (s : NucleusAgent K) (f : ForceVector3d K) : NucleusAgent K :=
  { s with forces := s.forces ++ [f] }

/-- The driving force of sphere `i` (TRAgen eq. 2). -/
def drivingForce (s : NucleusAgent K) (i : Nat) : ForceVector3d K :=
  { toVector3d := (s.weights i / s.velocity_PersistenceTime) • s.velocity_CurrentlyDesired
    base := s.futureGeometry.centres i
    hint := i
    type := ftype_drive }

/-- The method `NucleusAgent::advanceAndBuildIntForces`; the virtual hook `advanceAgent` of the
agent is a parameter. -/
def advanceAndBuildIntForces (advanceAgent : K → NucleusAgent K → NucleusAgent K)
    (futureGlobalTime : K) (s : NucleusAgent K) : NucleusAgent K :=
  let s := advanceAgent futureGlobalTime s
  let s := forLoop s.futureGeometry.noOfSpheres (fun i s => s.emplace_back (s.drivingForce i)) s
  { s with currTime := s.currTime + s.incrTime }

/-- The method `NucleusAgent::adjustGeometryByIntForces`. -/
def adjustGeometryByIntForces (s : NucleusAgent K) : NucleusAgent K :=
  s.adjustGeometryByForces

/-- The friction force of sphere `i` (TRAgen eq. 3). -/
def frictionForce (s : NucleusAgent K) (i : Nat) : ForceVector3d K :=
  { toVector3d := (-s.weights i / s.velocity_PersistenceTime) • s.velocities i
    base := s.futureGeometry.centres i
    hint := i
    type := ftype_friction }

/-- The classification step of phase 3 for one nearby agent: `getDistance` appends its pairs to
the list chosen by the first character of the agent type; for a nucleus the pairs carry the
reference to that agent. -/
def classify (s : NucleusAgent K) (sa : ShadowAgent K) : NucleusAgent K :=
  if sa.agentType.data.headD (Char.ofNat 0) = 'n' then
    { s with proximityPairs_toNuclei := s.proximityPairs_toNuclei ++
        sa.getDistance.map (fun pp => { pp with callerHint := sa.getVelocityOfSphere }) }
  else if sa.agentType.data.headD (Char.ofNat 0) = 'y' then
    { s with proximityPairs_toYolk := s.proximityPairs_toYolk ++ sa.getDistance }
  else
    { s with proximityPairs_tracks := s.proximityPairs_tracks ++ sa.getDistance }

/-- The scale `fScale` of the body force at signed distance `d <= 0`. -/
def bodyScale (d : K) : K :=
  if fstrength_overlap_depth < -d then
    fstrength_overlap_level + fstrength_overlap_scale * (-d - fstrength_overlap_depth)
  else fstrength_overlap_level

/-- The forces that the body of the loop over `proximityPairs_toNuclei` emits for the pair `pp`,
in the order of the `emplace_back` calls; `std::exp` and `std::sqrt` are `fexp` and `fsqrt`. -/
def nucleusPairForces (fexp fsqrt : K → K) (s : NucleusAgent K) (pp : ProximityPair K) :
    List (ForceVector3d K) :=
  if 0 < pp.distance then
    -- no collision
    if pp.distance < 3 then
      let f := (pp.localPos - pp.otherPos).changeToUnitOrZero fsqrt
      [ { toVector3d := (fstrength_overlap_level * fexp (-pp.distance / fstrength_rep_scale)) • f
          base := s.futureGeometry.centres pp.localHint.toNat
          hint := pp.localHint
          type := ftype_repulsive } ]
    else []
  else
    -- collision, pp.distance <= 0: body force
    let f := (pp.otherPos - pp.localPos).changeToUnitOrZero fsqrt
    let fScale := bodyScale pp.distance
    let body : ForceVector3d K :=
      { toVector3d := fScale • f
        base := s.futureGeometry.centres pp.localHint.toNat
        hint := pp.localHint
        type := ftype_body }
    -- sliding force: difference of velocities
    let g := pp.callerHint pp.otherHint - s.velocities pp.localHint.toNat
    -- f *= dotProduct(f,g); g -= f;
    let f := Vector3d.dotProduct f g • f
    let g := g - f
    -- g *= fstrength_slide_scale * weights[pp.localHint]/velocity_PersistenceTime;
    let g := (fstrength_slide_scale * s.weights pp.localHint.toNat / s.velocity_PersistenceTime) • g
    let slide : ForceVector3d K :=
      { toVector3d := g
        base := s.futureGeometry.centres pp.localHint.toNat
        hint := pp.localHint
        type := ftype_slide }
    [body, slide]

/-- The vector of the hinter force of a pair, before it is copied to every sphere. -/
def hinterVector (fsqrt : K → K) (pp : ProximityPair K) : Vector3d K :=
  (2 * fstrength_overlap_level * min (pp.distance * pp.distance * fstrength_hinter_scale) 1) •
    (pp.otherPos - pp.localPos).changeToUnitOrZero fsqrt

/-- The forces that the body of the loop over `proximityPairs_toYolk` emits for the pair `pp`. -/
def yolkPairForces (fsqrt : K → K) (s : NucleusAgent K) (pp : ProximityPair K) :
    List (ForceVector3d K) :=
  if pp.localHint = 0 then
    forLoop s.futureGeometry.noOfSpheres
      (fun i acc => acc ++ [ { toVector3d := hinterVector fsqrt pp
                               base := s.futureGeometry.centres i
                               hint := i
                               type := ftype_hinter } ]) []
  else []

/-- Appends the entries of a list to the ledger, one `emplace_back` after the other. -/
def emplace_all (s : NucleusAgent K) (fs : List (ForceVector3d K)) : NucleusAgent K :=
  fs.foldl emplace_back s

/-- The method `NucleusAgent::collectExtForces`; the answer of the scheduler to
`Officer->getNearbyAgents(this,ignoreDistance,...)` is the parameter `nearbyAgents`. -/
def collectExtForces (fexp fsqrt : K → K) (nearbyAgents : List (ShadowAgent K))
    (s : NucleusAgent K) : NucleusAgent K :=
  -- damping force
  let s := forLoop s.futureGeometry.noOfSpheres (fun i s => s.emplace_back (s.frictionForce i)) s
  -- the three lists are cleared and filled again
  let s := { s with proximityPairs_toNuclei := [], proximityPairs_toYolk := [],
                    proximityPairs_tracks := [] }
  let s := nearbyAgents.foldl classify s
  -- proximityPairs_toNuclei to forces
  let s := s.proximityPairs_toNuclei.foldl
    (fun s pp => s.emplace_all (nucleusPairForces fexp fsqrt s pp)) s
  -- proximityPairs_toYolk to forces
  s.proximityPairs_toYolk.foldl (fun s pp => s.emplace_all (yolkPairForces fsqrt s pp)) s

/-- The method `NucleusAgent::adjustGeometryByExtForces`. -/
def adjustGeometryByExtForces (s : NucleusAgent K) : NucleusAgent K :=
  s.adjustGeometryByForces

/-- The body of the loop of `publishGeometry` for sphere `i`. -/
def publishSphere (i : Nat) (s : NucleusAgent K) : NucleusAgent K :=
  -- geometryAlias.centres[i] = futureGeometry.centres[i];
  let s := { s with geometryAlias := { s.geometryAlias with
      centres := Function.update s.geometryAlias.centres i (s.futureGeometry.centres i) } }
  -- geometryAlias.radii[i] = futureGeometry.radii[i] + cytoplasmWidth;
  { s with geometryAlias := { s.geometryAlias with
      radii := Function.update s.geometryAlias.radii i
        (s.futureGeometry.radii i + s.cytoplasmWidth) } }

/-- The method `NucleusAgent::publishGeometry`. -/
def publishGeometry (s : NucleusAgent K) : NucleusAgent K :=
  let s := forLoop s.geometryAlias.noOfSpheres publishSphere s
  { s with geometryAlias := s.geometryAlias.updateOwnAABB }

/-- The net force on sphere `i`: the vector sum of the ledger entries whose hint is `i`. -/
def netForce (fs : List (ForceVector3d K)) (i : Nat) : Vector3d K :=
  ((fs.filter (fun f => f.hint = (i : Int))).map ForceVector3d.toVector3d).sum


/-- The state `s` with the joint buffer replaced by `a` and the internal centres by `c`. -/
def withBuf (s : NucleusAgent K) (a c : Nat → Vector3d K) : NucleusAgent K :=
  { s with accels := a, futureGeometry := { s.futureGeometry with centres := c } }

/-- The pairs that the classification loop of phase 3 puts on `proximityPairs_toNuclei`. -/
def nucleiPairsOf (nearbyAgents : List (ShadowAgent K)) : List (ProximityPair K) :=
  nearbyAgents.flatMap (fun sa =>
    if sa.agentType.data.headD (Char.ofNat 0) = 'n' then
      sa.getDistance.map (fun pp => { pp with callerHint := sa.getVelocityOfSphere })
    else [])

/-- The pairs that the classification loop of phase 3 puts on `proximityPairs_toYolk`. -/
def yolkPairsOf (nearbyAgents : List (ShadowAgent K)) : List (ProximityPair K) :=
  nearbyAgents.flatMap (fun sa =>
    if sa.agentType.data.headD (Char.ofNat 0) = 'n' then []
    else if sa.agentType.data.headD (Char.ofNat 0) = 'y' then sa.getDistance else [])

/-- The pairs that the classification loop of phase 3 puts on `proximityPairs_tracks`. -/
def trackPairsOf (nearbyAgents : List (ShadowAgent K)) : List (ProximityPair K) :=
  nearbyAgents.flatMap (fun sa =>
    if sa.agentType.data.headD (Char.ofNat 0) = 'n' then []
    else if sa.agentType.data.headD (Char.ofNat 0) = 'y' then [] else sa.getDistance)

/-- The hinter force on sphere `i` for the pair `pp`. -/
def hinterForce (fsqrt : K → K) (s : NucleusAgent K) (pp : ProximityPair K) (i : Nat) :
    ForceVector3d K :=
  { toVector3d := hinterVector fsqrt pp
    base := s.futureGeometry.centres i
    hint := i
    type := ftype_hinter }

/-- The constructor `NucleusAgent::NucleusAgent`.  Both geometries are copies of `shape` with a
refreshed bounding box, the ledger starts empty, nothing is desired yet, the persistence time is
2 and every weight is set to 1.  The contents of the two freshly allocated arrays
(`new Vector3d<FLOAT>[2*n]`, `new FLOAT[n]`) are parameters; the identifier and the type string of
the agent play no role in the mechanics and are left out. -/
def construct (shape : Spheres K) (_currTime _incrTime : K)
    (freshAccels : Nat → Vector3d K) (freshWeights : Nat → K) : NucleusAgent K :=
  { currTime := _currTime
    incrTime := _incrTime
    velocity_CurrentlyDesired := Vector3d.ofScalar 0
    velocity_PersistenceTime := 2
    geometryAlias := shape.updateOwnAABB
    futureGeometry := shape.updateOwnAABB
    cytoplasmWidth := 2
    ignoreDistance := 10
    proximityPairs_toNuclei := []
    proximityPairs_toYolk := []
    proximityPairs_tracks := []
    forces := []
    accels := freshAccels
    weights := forLoop shape.noOfSpheres (fun i w => Function.update w i 1) freshWeights }

/-- The hook `advanceAgent` that does nothing. -/
def noHook (_futureGlobalTime : K) (s : NucleusAgent K) : NucleusAgent K := s

/-- Modelled from the spec: one simulation round of the agent, the five phases in their fixed
order (the scheduler that calls them is not among the sources). -/
def tick (advanceAgent : K → NucleusAgent K → NucleusAgent K) (fexp fsqrt : K → K)
    (futureGlobalTime : K) (nearbyAgents : List (ShadowAgent K)) (s : NucleusAgent K) :
    NucleusAgent K :=
  publishGeometry (adjustGeometryByExtForces (collectExtForces fexp fsqrt nearbyAgents
    (adjustGeometryByIntForces (advanceAndBuildIntForces advanceAgent futureGlobalTime s))))

/-- Phases 1 to 4 of a round. -/
def phases1to4 (advanceAgent : K → NucleusAgent K → NucleusAgent K) (fexp fsqrt : K → K)
    (futureGlobalTime : K) (nearbyAgents : List (ShadowAgent K)) (s : NucleusAgent K) :
    NucleusAgent K :=
  adjustGeometryByExtForces (collectExtForces fexp fsqrt nearbyAgents
    (adjustGeometryByIntForces (advanceAndBuildIntForces advanceAgent futureGlobalTime s)))

/-- The state after `k` rounds; round `j` is run with global time `times j` and the nearby
agents `nearby j`. -/
def runTicks (advanceAgent : K → NucleusAgent K → NucleusAgent K) (fexp fsqrt : K → K)
    (times : Nat → K) (nearby : Nat → List (ShadowAgent K)) :
    Nat → NucleusAgent K → NucleusAgent K
  | 0, s => s
  | k + 1, s =>
    tick advanceAgent fexp fsqrt (times k) (nearby k)
      (runTicks advanceAgent fexp fsqrt times nearby k s)

/-- The normal force scale `S(d)` between two nuclei as the claims word it: the body scale
`overlapLevel + overlapScale * max(-d - overlapDepth, 0)` in contact, the repulsion scale
`overlapLevel * exp(-d / repulsionScale)` below the cutoff 3.0, and 0 from the cutoff on. -/
def specNormalScale (fexp : K → K) (d : K) : K :=
  if d ≤ 0 then
    fstrength_overlap_level + fstrength_overlap_scale * max (-d - fstrength_overlap_depth) 0
  else if d < 3 then fstrength_overlap_level * fexp (-d / fstrength_rep_scale)
  else 0

/-- Convergence of a sequence of vectors over the reals: every component converges. -/
def TendstoVec (u : Nat → Vector3d ℝ) (l : Vector3d ℝ) : Prop :=
  Filter.Tendsto (fun k => (u k).x) Filter.atTop (nhds l.x) ∧
    Filter.Tendsto (fun k => (u k).y) Filter.atTop (nhds l.y) ∧
    Filter.Tendsto (fun k => (u k).z) Filter.atTop (nhds l.z)

/-- The sum of the hinter vectors of the pairs that are tied to sphere 0. -/
def hinterSum (fsqrt : K → K) (pairs : List (ProximityPair K)) : Vector3d K :=
  ((pairs.filter (fun pp => pp.localHint = 0)).map (hinterVector fsqrt)).sum

/-- The agent states a simulation can reach: the constructed agent, and every state obtained
from a reachable one by one of the five phases (with any global time and any nearby agents). -/
inductive Reachable (advanceAgent : K → NucleusAgent K → NucleusAgent K) (fexp fsqrt : K → K) :
    NucleusAgent K → Prop
  | init (shape : Spheres K) (ct it : K) (fa : Nat → Vector3d K) (fw : Nat → K) :
      Reachable advanceAgent fexp fsqrt (construct shape ct it fa fw)
  | phase1 (s : NucleusAgent K) (t : K) : Reachable advanceAgent fexp fsqrt s →
      Reachable advanceAgent fexp fsqrt (s.advanceAndBuildIntForces advanceAgent t)
  | phase2 (s : NucleusAgent K) : Reachable advanceAgent fexp fsqrt s →
      Reachable advanceAgent fexp fsqrt s.adjustGeometryByIntForces
  | phase3 (s : NucleusAgent K) (nearbyAgents : List (ShadowAgent K)) :
      Reachable advanceAgent fexp fsqrt s →
      Reachable advanceAgent fexp fsqrt (s.collectExtForces fexp fsqrt nearbyAgents)
  | phase4 (s : NucleusAgent K) : Reachable advanceAgent fexp fsqrt s →
      Reachable advanceAgent fexp fsqrt s.adjustGeometryByExtForces
  | phase5 (s : NucleusAgent K) : Reachable advanceAgent fexp fsqrt s →
      Reachable advanceAgent fexp fsqrt s.publishGeometry

/-- Every entry of the ledger carries a sphere index of the chain: `0 <= hint < noOfSpheres`. -/
def LedgerInRange (s : NucleusAgent K) : Prop :=
  ∀ f ∈ s.forces, 0 ≤ f.hint ∧ f.hint < (s.futureGeometry.noOfSpheres : Int)

/-- The states in which a simulation round starts: the constructed agent, and the state after
every whole round (with any hook, any global time and any nearby agents) run from such a state. -/
inductive TickStart (fexp fsqrt : K → K) : NucleusAgent K → Prop
  | init (shape : Spheres K) (ct it : K) (fa : Nat → Vector3d K) (fw : Nat → K) :
      TickStart fexp fsqrt (construct shape ct it fa fw)
  | round (advanceAgent : K → NucleusAgent K → NucleusAgent K) (t : K)
      (nearbyAgents : List (ShadowAgent K)) (s : NucleusAgent K) :
      TickStart fexp fsqrt s →
      TickStart fexp fsqrt (tick advanceAgent fexp fsqrt t nearbyAgents s)

/-! ## Concrete agents used for evaluation -/

/-- A one-sphere agent at rest in the origin: unit weight, tick duration 1, empty ledger. -/
def restingAgent : NucleusAgent K :=
  { currTime := 0
    incrTime := 1
    velocity_CurrentlyDesired := 0
    velocity_PersistenceTime := 2
    geometryAlias := { noOfSpheres := 1, centres := fun _ => 0, radii := fun _ => 3, AABB := none }
    futureGeometry := { noOfSpheres := 1, centres := fun _ => 0, radii := fun _ => 1, AABB := none }
    cytoplasmWidth := 2
    ignoreDistance := 10
    proximityPairs_toNuclei := []
    proximityPairs_toYolk := []
    proximityPairs_tracks := []
    forces := []
    accels := fun _ => 0
    weights := fun _ => 1 }

/-- The resting agent with one ledger entry `(1,0,0)` on sphere 0. -/
def pushedAgent : NucleusAgent K :=
  { (restingAgent : NucleusAgent K) with
    forces := [ { toVector3d := ⟨1, 0, 0⟩, base := 0, hint := 0, type := ftype_drive } ] }

/-- The resting agent with one ledger entry `(1,0,0)` whose hint is `1 = noOfSpheres`, the cell
of the joint buffer that holds `velocities[0]`. -/
def aliasedAgent : NucleusAgent K :=
  { (restingAgent : NucleusAgent K) with
    forces := [ { toVector3d := ⟨1, 0, 0⟩, base := 0, hint := 1, type := ftype_s2s } ] }

/-- The one-sphere agent moving with velocity `(1,0,0)` and an empty ledger. -/
def coastingAgent : NucleusAgent K :=
  { (restingAgent : NucleusAgent K) with
    accels := fun j => if j = 1 then ⟨1, 0, 0⟩ else 0 }

/-- The moving agent with two ledger entries on sphere 0 that cancel. -/
def balancedAgent : NucleusAgent K :=
  { (coastingAgent : NucleusAgent K) with
    forces := [ { toVector3d := ⟨1, 0, 0⟩, base := 0, hint := 0, type := ftype_drive },
                { toVector3d := ⟨-1, 0, 0⟩, base := 0, hint := 0, type := ftype_friction } ] }

/-- A proximity pair at signed distance `d` on sphere 0, with the local surface point in the
origin and the other surface point at `(1,0,0)`. -/
def pairAt (d : K) : ProximityPair K :=
  { localPos := 0
    otherPos := ⟨1, 0, 0⟩
    distance := d
    localHint := 0
    otherHint := 0
    callerHint := fun _ => 0 }

/-- A nearby nucleus at rest whose geometry yields the single pair `pairAt d`. -/
def nucleusAt (d : K) : ShadowAgent K :=
  { agentType := "nucleus"
    getVelocityOfSphere := fun _ => 0
    getDistance := [pairAt d] }

/-- A nearby shape hinter (yolk) whose geometry yields the single pair `pairAt d`. -/
def yolkAt (d : K) : ShadowAgent K :=
  { agentType := "yolk"
    getVelocityOfSphere := fun _ => 0
    getDistance := [pairAt d] }

/-- The resting one-sphere agent that desires the velocity `(1,0,0)`. -/
def drivenAgent : NucleusAgent K :=
  { (restingAgent : NucleusAgent K) with velocity_CurrentlyDesired := ⟨1, 0, 0⟩ }

/-- A nearby guiding trajectory whose geometry yields the single pair `pairAt d`. -/
def trackAt (d : K) : ShadowAgent K :=
  { agentType := "track"
    getVelocityOfSphere := fun _ => 0
    getDistance := [pairAt d] }

/-- A chain of two spheres of radius 1 with centres `(0,0,0)` and `(1,0,0)`. -/
def pairShape : Spheres K :=
  { noOfSpheres := 2, centres := fun i => ⟨(i : K), 0, 0⟩, radii := fun _ => 1, AABB := none }

/-- The two-sphere agent as the constructor builds it from `pairShape` with tick duration 1 and
zero-initialised arrays: unit weights, zero velocities, empty ledger. -/
def pairAgent : NucleusAgent K :=
  construct pairShape 0 1 (fun _ => 0) (fun _ => 0)

/-! ## Components of vector operations -/

@[simp] theorem Vector3d.zero_x : (0 : Vector3d K).x = 0 := rfl
@[simp] theorem Vector3d.zero_y : (0 : Vector3d K).y = 0 := rfl
@[simp] theorem Vector3d.zero_z : (0 : Vector3d K).z = 0 := rfl
@[simp] theorem Vector3d.add_x (a b : Vector3d K) : (a + b).x = a.x + b.x := rfl
@[simp] theorem Vector3d.add_y (a b : Vector3d K) : (a + b).y = a.y + b.y := rfl
@[simp] theorem Vector3d.add_z (a b : Vector3d K) : (a + b).z = a.z + b.z := rfl
@[simp] theorem Vector3d.neg_x (a : Vector3d K) : (-a).x = -a.x := rfl
@[simp] theorem Vector3d.neg_y (a : Vector3d K) : (-a).y = -a.y := rfl
@[simp] theorem Vector3d.neg_z (a : Vector3d K) : (-a).z = -a.z := rfl
@[simp] theorem Vector3d.sub_x (a b : Vector3d K) : (a - b).x = a.x - b.x := rfl
@[simp] theorem Vector3d.sub_y (a b : Vector3d K) : (a - b).y = a.y - b.y := rfl
@[simp] theorem Vector3d.sub_z (a b : Vector3d K) : (a - b).z = a.z - b.z := rfl
@[simp] theorem Vector3d.smul_x (c : K) (a : Vector3d K) : (c • a).x = c * a.x := rfl
@[simp] theorem Vector3d.smul_y (c : K) (a : Vector3d K) : (c • a).y = c * a.y := rfl
@[simp] theorem Vector3d.smul_z (c : K) (a : Vector3d K) : (c • a).z = c * a.z := rfl

/-! ## The integration pass, loop by loop -/

theorem ofScalar_zero : Vector3d.ofScalar (0 : K) = 0 := rfl

theorem zeroLoop_eq (s : NucleusAgent K) (k : Nat) :
    forLoop k (fun i s => s.setAccel i (Vector3d.ofScalar 0)) s =
      s.withBuf (fun j => if j < k then 0 else s.accels j) s.futureGeometry.centres := by
  induction k with
  | zero => simp [forLoop, withBuf]
  | succ k ih =>
    rw [forLoop, ih]
    simp only [setAccel, withBuf, ofScalar_zero]
    congr 1
    funext j
    by_cases h : j = k
    · subst h; simp
    · rw [Function.update_noteq h]
      by_cases h1 : j < k
      · simp [h1, Nat.lt_succ_of_lt h1]
      · have : ¬ j < k + 1 := by omega
        simp [h1, this]

theorem accumulate_noOfSpheres (s : NucleusAgent K) (f : ForceVector3d K) :
    (s.accumulate f).futureGeometry = s.futureGeometry := by
  unfold accumulate; split <;> rfl

theorem foldl_accumulate_eq (fs : List (ForceVector3d K)) (s : NucleusAgent K) :
    fs.foldl accumulate s =
      s.withBuf (fun j => if j < 2 * s.futureGeometry.noOfSpheres
                  then s.accels j + netForce fs j else s.accels j) s.futureGeometry.centres := by
  induction fs generalizing s with
  | nil => simp [netForce, withBuf]
  | cons f fs ih =>
    rw [List.foldl_cons, ih]
    unfold accumulate
    split
    · rename_i h
      simp only [withBuf]
      congr 1
      funext j
      by_cases hj : j < 2 * s.futureGeometry.noOfSpheres
      · simp only [hj, if_true]
        by_cases hf : f.hint = (j : Int)
        · have : f.hint.toNat = j := by omega
          rw [this, Function.update_same]
          simp [netForce, List.filter_cons, hf, add_assoc]
        · have : j ≠ f.hint.toNat := by omega
          simp [netForce, List.filter_cons, hf, Function.update_noteq this]
      · have : j ≠ f.hint.toNat := by omega
        simp [hj, Function.update_noteq this]
    · rename_i h
      simp only [withBuf]
      congr 1
      funext j
      by_cases hj : j < 2 * s.futureGeometry.noOfSpheres
      · have hf : ¬ f.hint = (j : Int) := by omega
        simp [netForce, List.filter_cons, hf, hj]
      · simp [hj]


theorem integrateLoop_eq (s : NucleusAgent K) (k : Nat) (hk : k ≤ s.futureGeometry.noOfSpheres) :
    forLoop k integrateSphere s =
      s.withBuf
        (fun j => if j < k then (s.accels j).divScalar (s.weights j)
          else if s.futureGeometry.noOfSpheres ≤ j ∧ j < s.futureGeometry.noOfSpheres + k then
            s.accels j + s.incrTime • (s.accels (j - s.futureGeometry.noOfSpheres)).divScalar
              (s.weights (j - s.futureGeometry.noOfSpheres))
          else s.accels j)
        (fun j => if j < k then
            s.futureGeometry.centres j + s.incrTime •
              (s.accels (s.futureGeometry.noOfSpheres + j) +
                s.incrTime • (s.accels j).divScalar (s.weights j))
          else s.futureGeometry.centres j) := by
  induction k with
  | zero =>
    have h0 : ∀ j, ¬ (s.futureGeometry.noOfSpheres ≤ j ∧ j < s.futureGeometry.noOfSpheres) :=
      fun j h => by omega
    simp [forLoop, withBuf, h0]
  | succ k ih =>
    rw [forLoop, ih (by omega)]
    have hkn : k < s.futureGeometry.noOfSpheres := by omega
    simp only [integrateSphere, setAccel, setVelocity, setCentre, velocities, withBuf]
    congr 1
    · congr 1
      funext j
      by_cases h : j = k
      · subst h
        have h1 : s.futureGeometry.noOfSpheres + j ≠ j := by omega
        have h2 : ¬ (s.futureGeometry.noOfSpheres ≤ j) := by omega
        simp [h1, h2]
      · rw [Function.update_noteq h]
        by_cases h1 : j < k
        · simp [h1, Nat.lt_succ_of_lt h1]
        · have : ¬ j < k + 1 := by omega
          simp [h1, this]
    · funext j
      by_cases h : j = s.futureGeometry.noOfSpheres + k
      · subst h
        have h1 : ¬ (s.futureGeometry.noOfSpheres + k < k) := by omega
        have h2 : ¬ (s.futureGeometry.noOfSpheres + k < k + 1) := by omega
        have h3 : s.futureGeometry.noOfSpheres + k ≠ k := by omega
        have h4 : ¬ (s.futureGeometry.noOfSpheres ≤ k) := by omega
        simp [h1, h2, h3, h4]
      · rw [Function.update_noteq h]
        by_cases h0 : j = k
        · subst h0
          have h2 : ¬ (s.futureGeometry.noOfSpheres ≤ j) := by omega
          simp [h2]
        · rw [Function.update_noteq h0]
          by_cases h1 : j < k
          · simp [h1, Nat.lt_succ_of_lt h1]
          · have h2 : ¬ j < k + 1 := by omega
            by_cases h3 : s.futureGeometry.noOfSpheres ≤ j ∧ j < s.futureGeometry.noOfSpheres + k
            · have h4 : s.futureGeometry.noOfSpheres ≤ j ∧ j < s.futureGeometry.noOfSpheres + (k+1) := by omega
              simp [h1, h2, h3, h4]
            · have h4 : ¬ (s.futureGeometry.noOfSpheres ≤ j ∧ j < s.futureGeometry.noOfSpheres + (k+1)) := by omega
              simp [h1, h2, h3, h4]


theorem adjustGeometryByForces_eq (s : NucleusAgent K) :
    s.adjustGeometryByForces =
      { (s.withBuf
        (fun j => if j < s.futureGeometry.noOfSpheres then
            (netForce s.forces j).divScalar (s.weights j)
          else if j < 2 * s.futureGeometry.noOfSpheres then
            s.accels j + netForce s.forces j +
              s.incrTime • (netForce s.forces (j - s.futureGeometry.noOfSpheres)).divScalar
                (s.weights (j - s.futureGeometry.noOfSpheres))
          else s.accels j)
        (fun j => if j < s.futureGeometry.noOfSpheres then
            s.futureGeometry.centres j + s.incrTime •
              (s.accels (s.futureGeometry.noOfSpheres + j) +
                netForce s.forces (s.futureGeometry.noOfSpheres + j) +
                s.incrTime • (netForce s.forces j).divScalar (s.weights j))
          else s.futureGeometry.centres j)) with
        futureGeometry := Spheres.updateOwnAABB
          { s.futureGeometry with centres := (fun j => if j < s.futureGeometry.noOfSpheres then
            s.futureGeometry.centres j + s.incrTime •
              (s.accels (s.futureGeometry.noOfSpheres + j) +
                netForce s.forces (s.futureGeometry.noOfSpheres + j) +
                s.incrTime • (netForce s.forces j).divScalar (s.weights j))
          else s.futureGeometry.centres j) }
        forces := [] } := by
  unfold adjustGeometryByForces
  simp only []
  rw [zeroLoop_eq, foldl_accumulate_eq, integrateLoop_eq _ _ (le_refl _)]
  simp only [withBuf]
  congr 1
  · congr 2
    funext j
    by_cases h : j < s.futureGeometry.noOfSpheres
    · have h1 : j < 2 * s.futureGeometry.noOfSpheres := by omega
      have h2 : s.futureGeometry.noOfSpheres + j < 2 * s.futureGeometry.noOfSpheres := by omega
      have h3 : ¬ (s.futureGeometry.noOfSpheres + j < s.futureGeometry.noOfSpheres) := by omega
      simp [h, h1, h2, h3]
    · simp [h]
  · funext j
    by_cases h : j < s.futureGeometry.noOfSpheres
    · have h1 : j < 2 * s.futureGeometry.noOfSpheres := by omega
      simp [h, h1]
    · by_cases h1 : j < 2 * s.futureGeometry.noOfSpheres
      · have h2 : s.futureGeometry.noOfSpheres ≤ j ∧
            j < s.futureGeometry.noOfSpheres + s.futureGeometry.noOfSpheres := by omega
        have h3 : j - s.futureGeometry.noOfSpheres < s.futureGeometry.noOfSpheres := by omega
        have h4 : j - s.futureGeometry.noOfSpheres < 2 * s.futureGeometry.noOfSpheres := by omega
        simp [h, h1, h2, h3, h4]
      · have h2 : ¬ (s.futureGeometry.noOfSpheres ≤ j ∧
            j < s.futureGeometry.noOfSpheres + s.futureGeometry.noOfSpheres) := by omega
        simp [h, h1, h2]


theorem adjustGeometryByForces_forces (s : NucleusAgent K) :
    s.adjustGeometryByForces.forces = [] := by
  rw [adjustGeometryByForces_eq]

theorem adjustGeometryByForces_weights (s : NucleusAgent K) :
    s.adjustGeometryByForces.weights = s.weights := by
  rw [adjustGeometryByForces_eq]; rfl

theorem adjustGeometryByForces_radii (s : NucleusAgent K) :
    s.adjustGeometryByForces.futureGeometry.radii = s.futureGeometry.radii := by
  rw [adjustGeometryByForces_eq]; rfl

theorem adjustGeometryByForces_noOfSpheres (s : NucleusAgent K) :
    s.adjustGeometryByForces.futureGeometry.noOfSpheres = s.futureGeometry.noOfSpheres := by
  rw [adjustGeometryByForces_eq]; rfl

/-- The velocity of sphere `i` after an integration pass, for an arbitrary ledger: entries with
hint `noOfSpheres + i` land in the velocity cell itself. -/
theorem adjustGeometryByForces_velocities (s : NucleusAgent K) (i : Nat)
    (hi : i < s.futureGeometry.noOfSpheres) :
    s.adjustGeometryByForces.velocities i =
      s.velocities i + netForce s.forces (s.futureGeometry.noOfSpheres + i) +
        s.incrTime • (netForce s.forces i).divScalar (s.weights i) := by
  rw [adjustGeometryByForces_eq]
  have h1 : ¬ (s.futureGeometry.noOfSpheres + i < s.futureGeometry.noOfSpheres) := by omega
  have h2 : s.futureGeometry.noOfSpheres + i < 2 * s.futureGeometry.noOfSpheres := by omega
  simp [velocities, withBuf, Spheres.updateOwnAABB, h1, h2]

theorem adjustGeometryByForces_centres (s : NucleusAgent K) (i : Nat)
    (hi : i < s.futureGeometry.noOfSpheres) :
    s.adjustGeometryByForces.futureGeometry.centres i =
      s.futureGeometry.centres i + s.incrTime • s.adjustGeometryByForces.velocities i := by
  rw [adjustGeometryByForces_velocities s i hi]
  rw [adjustGeometryByForces_eq]
  simp [velocities, withBuf, Spheres.updateOwnAABB, hi]

theorem netForce_eq_zero (fs : List (ForceVector3d K)) (j : Nat)
    (h : ∀ f ∈ fs, f.hint ≠ (j : Int)) : netForce fs j = 0 := by
  unfold netForce
  rw [List.filter_eq_nil_iff.mpr]
  · simp
  · intro f hf
    simpa using h f hf

/-! ## Publication -/

theorem publishLoop_eq (s : NucleusAgent K) (k : Nat) :
    forLoop k publishSphere s =
      { s with geometryAlias := { s.geometryAlias with
          centres := fun j => if j < k then s.futureGeometry.centres j
            else s.geometryAlias.centres j
          radii := fun j => if j < k then s.futureGeometry.radii j + s.cytoplasmWidth
            else s.geometryAlias.radii j } } := by
  induction k with
  | zero => simp [forLoop]
  | succ k ih =>
    rw [forLoop, ih]
    simp only [publishSphere]
    congr 2
    · funext j
      by_cases h : j = k
      · subst h; simp
      · rw [Function.update_noteq h]
        by_cases h1 : j < k
        · simp [h1, Nat.lt_succ_of_lt h1]
        · have : ¬ j < k + 1 := by omega
          simp [h1, this]
    · funext j
      by_cases h : j = k
      · subst h; simp
      · rw [Function.update_noteq h]
        by_cases h1 : j < k
        · simp [h1, Nat.lt_succ_of_lt h1]
        · have : ¬ j < k + 1 := by omega
          simp [h1, this]

theorem publishGeometry_eq (s : NucleusAgent K) :
    s.publishGeometry =
      { s with geometryAlias := Spheres.updateOwnAABB { s.geometryAlias with
          centres := fun j => if j < s.geometryAlias.noOfSpheres then s.futureGeometry.centres j
            else s.geometryAlias.centres j
          radii := fun j => if j < s.geometryAlias.noOfSpheres then
              s.futureGeometry.radii j + s.cytoplasmWidth
            else s.geometryAlias.radii j } } := by
  unfold publishGeometry
  simp only []
  rw [publishLoop_eq]

/-! ## Phase 3, loop by loop -/

theorem emplace_all_eq (fs : List (ForceVector3d K)) (s : NucleusAgent K) :
    s.emplace_all fs = { s with forces := s.forces ++ fs } := by
  unfold emplace_all
  induction fs generalizing s with
  | nil => simp
  | cons f fs ih => rw [List.foldl_cons, ih]; simp [emplace_back]

theorem frictionLoop_eq (s : NucleusAgent K) (k : Nat) :
    forLoop k (fun i s => s.emplace_back (s.frictionForce i)) s =
      { s with forces := s.forces ++ (List.range k).map s.frictionForce } := by
  induction k with
  | zero => simp [forLoop]
  | succ k ih =>
    rw [forLoop, ih, List.range_succ]
    simp [emplace_back, frictionForce, velocities]

theorem drivingLoop_eq (s : NucleusAgent K) (k : Nat) :
    forLoop k (fun i s => s.emplace_back (s.drivingForce i)) s =
      { s with forces := s.forces ++ (List.range k).map s.drivingForce } := by
  induction k with
  | zero => simp [forLoop]
  | succ k ih =>
    rw [forLoop, ih, List.range_succ]
    simp [emplace_back, drivingForce]

theorem classify_foldl_eq (nearbyAgents : List (ShadowAgent K)) (s : NucleusAgent K) :
    nearbyAgents.foldl classify s =
      { s with
        proximityPairs_toNuclei := s.proximityPairs_toNuclei ++ nucleiPairsOf nearbyAgents
        proximityPairs_toYolk := s.proximityPairs_toYolk ++ yolkPairsOf nearbyAgents
        proximityPairs_tracks := s.proximityPairs_tracks ++ trackPairsOf nearbyAgents } := by
  induction nearbyAgents generalizing s with
  | nil => simp [nucleiPairsOf, yolkPairsOf, trackPairsOf]
  | cons sa rest ih =>
    rw [List.foldl_cons, ih]
    unfold classify
    by_cases hn : sa.agentType.data.headD (Char.ofNat 0) = 'n'
    · rw [if_pos hn]
      simp only [nucleiPairsOf, yolkPairsOf, trackPairsOf, List.flatMap_cons, if_pos hn,
        List.append_assoc, List.nil_append]
    · by_cases hy : sa.agentType.data.headD (Char.ofNat 0) = 'y'
      · rw [if_neg hn, if_pos hy]
        simp only [nucleiPairsOf, yolkPairsOf, trackPairsOf, List.flatMap_cons, if_neg hn,
          if_pos hy, List.append_assoc, List.nil_append]
      · rw [if_neg hn, if_neg hy]
        simp only [nucleiPairsOf, yolkPairsOf, trackPairsOf, List.flatMap_cons, if_neg hn,
          if_neg hy, List.append_assoc, List.nil_append]

theorem nucleusPairForces_congr (fexp fsqrt : K → K) (s t : NucleusAgent K)
    (pp : ProximityPair K) (h1 : t.futureGeometry = s.futureGeometry)
    (h2 : t.accels = s.accels) (h3 : t.weights = s.weights)
    (h4 : t.velocity_PersistenceTime = s.velocity_PersistenceTime) :
    nucleusPairForces fexp fsqrt t pp = nucleusPairForces fexp fsqrt s pp := by
  unfold nucleusPairForces velocities
  rw [h1, h2, h3, h4]

theorem yolkPairForces_eq (fsqrt : K → K) (s : NucleusAgent K) (pp : ProximityPair K) :
    yolkPairForces fsqrt s pp =
      if pp.localHint = 0 then
        (List.range s.futureGeometry.noOfSpheres).map (hinterForce fsqrt s pp)
      else [] := by
  unfold yolkPairForces
  split
  · generalize s.futureGeometry.noOfSpheres = n
    induction n with
    | zero => simp [forLoop]
    | succ n ih => rw [forLoop, ih, List.range_succ]; simp [hinterForce]
  · rfl

theorem yolkPairForces_congr (fsqrt : K → K) (s t : NucleusAgent K)
    (pp : ProximityPair K) (h1 : t.futureGeometry = s.futureGeometry) :
    yolkPairForces fsqrt t pp = yolkPairForces fsqrt s pp := by
  unfold yolkPairForces
  rw [h1]

theorem nucleiLoop_eq (fexp fsqrt : K → K) (pairs : List (ProximityPair K))
    (s : NucleusAgent K) :
    pairs.foldl (fun s pp => s.emplace_all (nucleusPairForces fexp fsqrt s pp)) s =
      { s with forces := s.forces ++ pairs.flatMap (nucleusPairForces fexp fsqrt s) } := by
  induction pairs generalizing s with
  | nil => simp
  | cons pp rest ih =>
    rw [List.foldl_cons, ih, emplace_all_eq]
    have h : nucleusPairForces fexp fsqrt
        { s with forces := s.forces ++ nucleusPairForces fexp fsqrt s pp } =
        nucleusPairForces fexp fsqrt s :=
      funext (fun q => nucleusPairForces_congr fexp fsqrt s _ q rfl rfl rfl rfl)
    simp [h]

theorem yolkLoop_eq (fsqrt : K → K) (pairs : List (ProximityPair K)) (s : NucleusAgent K) :
    pairs.foldl (fun s pp => s.emplace_all (yolkPairForces fsqrt s pp)) s =
      { s with forces := s.forces ++ pairs.flatMap (yolkPairForces fsqrt s) } := by
  induction pairs generalizing s with
  | nil => simp
  | cons pp rest ih =>
    rw [List.foldl_cons, ih, emplace_all_eq]
    have h : yolkPairForces fsqrt
        { s with forces := s.forces ++ yolkPairForces fsqrt s pp } =
        yolkPairForces fsqrt s :=
      funext (fun q => yolkPairForces_congr fsqrt s _ q rfl)
    simp [h]

/-- Phase 3 in closed form: the three proximity lists are the classified pairs of the nearby
agents, and the ledger grows by the friction entries, then the forces of the nuclei pairs, then
the forces of the yolk pairs; nothing else changes. -/
theorem collectExtForces_eq (fexp fsqrt : K → K) (nearbyAgents : List (ShadowAgent K))
    (s : NucleusAgent K) :
    s.collectExtForces fexp fsqrt nearbyAgents =
      { s with
        proximityPairs_toNuclei := nucleiPairsOf nearbyAgents
        proximityPairs_toYolk := yolkPairsOf nearbyAgents
        proximityPairs_tracks := trackPairsOf nearbyAgents
        forces := s.forces ++ (List.range s.futureGeometry.noOfSpheres).map s.frictionForce ++
          (nucleiPairsOf nearbyAgents).flatMap (nucleusPairForces fexp fsqrt s) ++
          (yolkPairsOf nearbyAgents).flatMap (yolkPairForces fsqrt s) } := by
  unfold collectExtForces
  simp only []
  rw [frictionLoop_eq, classify_foldl_eq]
  simp only [List.nil_append]
  rw [nucleiLoop_eq, yolkLoop_eq]
  simp only [List.append_assoc]
  rfl

theorem nucleiPairsOf_nucleusAt (ds : List K) :
    nucleiPairsOf (ds.map nucleusAt) = ds.map pairAt := by
  induction ds with
  | nil => rfl
  | cons d ds ih =>
    have h : (nucleusAt d).agentType.data.headD (Char.ofNat 0) = 'n' := rfl
    simp only [nucleiPairsOf, List.map_cons, List.flatMap_cons, if_pos h] at ih ⊢
    rw [ih]
    rfl

theorem yolkPairsOf_yolkAt (ds : List K) :
    yolkPairsOf (ds.map yolkAt) = ds.map pairAt := by
  induction ds with
  | nil => rfl
  | cons d ds ih =>
    have h : ¬ (yolkAt d).agentType.data.headD (Char.ofNat 0) = 'n' :=
      fun e => (by decide : ¬ ('y' = 'n')) e
    have h1 : (yolkAt d).agentType.data.headD (Char.ofNat 0) = 'y' := rfl
    simp only [yolkPairsOf, List.map_cons, List.flatMap_cons, if_neg h, if_pos h1] at ih ⊢
    rw [ih]
    rfl

theorem origin_ne_unitX : (0 : Vector3d K) ≠ ⟨1, 0, 0⟩ := by
  intro h
  have := congrArg Vector3d.x h
  simp at this

/-! ## Lengths -/

theorem len2_nonneg (a : Vector3d K) : 0 ≤ a.len2 := by
  unfold Vector3d.len2
  have := mul_self_nonneg a.x
  have := mul_self_nonneg a.y
  have := mul_self_nonneg a.z
  linarith

theorem len2_pos (a : Vector3d K) (h : a ≠ 0) : 0 < a.len2 := by
  rcases lt_or_eq_of_le (len2_nonneg a) with h1 | h1
  · exact h1
  · exfalso
    apply h
    unfold Vector3d.len2 at h1
    have hx := mul_self_nonneg a.x
    have hy := mul_self_nonneg a.y
    have hz := mul_self_nonneg a.z
    ext
    · exact mul_self_eq_zero.mp (by linarith)
    · exact mul_self_eq_zero.mp (by linarith)
    · exact mul_self_eq_zero.mp (by linarith)

theorem len2_smul (c : K) (a : Vector3d K) : (c • a).len2 = c * c * a.len2 := by
  simp only [Vector3d.len2, Vector3d.smul_x, Vector3d.smul_y, Vector3d.smul_z]
  ring

theorem changeToUnitOrZero_zero (fsqrt : K → K) :
    (0 : Vector3d K).changeToUnitOrZero fsqrt = 0 := by
  simp [Vector3d.changeToUnitOrZero, Vector3d.len2]

theorem len_smul (c : ℝ) (a : Vector3d ℝ) :
    (c • a).len Real.sqrt = |c| * a.len Real.sqrt := by
  unfold Vector3d.len
  rw [len2_smul, Real.sqrt_mul (mul_self_nonneg c), Real.sqrt_mul_self_eq_abs]

theorem changeToUnitOrZero_eq (a : Vector3d ℝ) (h : a ≠ 0) :
    a.changeToUnitOrZero Real.sqrt = (1 / a.len Real.sqrt) • a := by
  have hp := len2_pos a h
  unfold Vector3d.changeToUnitOrZero Vector3d.len
  rw [if_pos hp]
  ext <;> simp [Vector3d.divScalar, div_eq_inv_mul]

theorem len_changeToUnitOrZero (a : Vector3d ℝ) (h : a ≠ 0) :
    (a.changeToUnitOrZero Real.sqrt).len Real.sqrt = 1 := by
  have hp := len2_pos a h
  have hs : 0 < Real.sqrt a.len2 := Real.sqrt_pos.mpr hp
  rw [changeToUnitOrZero_eq a h, len_smul]
  unfold Vector3d.len
  rw [abs_of_pos (by positivity)]
  field_simp

theorem len_changeToUnitOrZero_le (a : Vector3d ℝ) :
    (a.changeToUnitOrZero Real.sqrt).len Real.sqrt ≤ 1 := by
  by_cases h : a = 0
  · subst h
    rw [changeToUnitOrZero_zero]
    simp [Vector3d.len, Vector3d.len2]
  · exact le_of_eq (len_changeToUnitOrZero a h)

theorem len_pos (a : Vector3d ℝ) (h : a ≠ 0) : 0 < a.len Real.sqrt :=
  Real.sqrt_pos.mpr (len2_pos a h)

/-! ## Phase 1 and whole rounds -/

theorem advanceAndBuildIntForces_noHook_eq (t : K) (s : NucleusAgent K) :
    s.advanceAndBuildIntForces noHook t =
      { s with
        forces := s.forces ++ (List.range s.futureGeometry.noOfSpheres).map s.drivingForce
        currTime := s.currTime + s.incrTime } := by
  unfold advanceAndBuildIntForces noHook
  simp only []
  rw [drivingLoop_eq]

theorem netForce_append (fs gs : List (ForceVector3d K)) (i : Nat) :
    netForce (fs ++ gs) i = netForce fs i + netForce gs i := by
  simp [netForce]

theorem netForce_nil (i : Nat) : netForce ([] : List (ForceVector3d K)) i = 0 := by
  simp [netForce]

/-- The net force on sphere `i` of one entry per sphere index `0 .. n-1` whose hint is its index:
the entry of `i` if `i < n`, nothing otherwise. -/
theorem netForce_map_range (n : Nat) (g : Nat → ForceVector3d K)
    (hg : ∀ j, (g j).hint = (j : Int)) (i : Nat) :
    netForce ((List.range n).map g) i = if i < n then (g i).toVector3d else 0 := by
  induction n with
  | zero => simp [netForce]
  | succ n ih =>
    rw [List.range_succ, List.map_append, netForce_append, ih]
    by_cases h : i = n
    · subst h
      simp [netForce, hg]
    · have h1 : ¬ ((n : Int) = (i : Int)) := by omega
      by_cases h2 : i < n
      · simp [netForce, hg, h1, h2, Nat.lt_succ_of_lt h2]
      · have h3 : ¬ i < n + 1 := by omega
        simp [netForce, hg, h1, h2, h3]

/-- What an integration pass leaves alone. -/
theorem adjustGeometryByForces_frame (s : NucleusAgent K) :
    s.adjustGeometryByForces.incrTime = s.incrTime ∧
      s.adjustGeometryByForces.velocity_PersistenceTime = s.velocity_PersistenceTime ∧
      s.adjustGeometryByForces.velocity_CurrentlyDesired = s.velocity_CurrentlyDesired ∧
      s.adjustGeometryByForces.geometryAlias = s.geometryAlias ∧
      s.adjustGeometryByForces.currTime = s.currTime ∧
      s.adjustGeometryByForces.cytoplasmWidth = s.cytoplasmWidth := by
  rw [adjustGeometryByForces_eq]
  exact ⟨rfl, rfl, rfl, rfl, rfl, rfl⟩

/-- The net force of the hinter entries of a list of yolk pairs: the same vector on every sphere
of the chain, nothing on any other index. -/
theorem netForce_yolk (fsqrt : K → K) (s : NucleusAgent K) (pairs : List (ProximityPair K))
    (j : Nat) :
    netForce (pairs.flatMap (yolkPairForces fsqrt s)) j =
      if j < s.futureGeometry.noOfSpheres then hinterSum fsqrt pairs else 0 := by
  induction pairs with
  | nil => simp [netForce, hinterSum]
  | cons pp rest ih =>
    rw [List.flatMap_cons, netForce_append, ih, yolkPairForces_eq]
    by_cases h0 : pp.localHint = 0
    · rw [if_pos h0, netForce_map_range _ _ (fun j => rfl)]
      by_cases hj : j < s.futureGeometry.noOfSpheres
      · simp [hj, hinterSum, List.filter_cons, h0, hinterForce]
      · simp [hj]
    · rw [if_neg h0, netForce_nil]
      by_cases hj : j < s.futureGeometry.noOfSpheres
      · simp [hj, hinterSum, List.filter_cons, h0]
      · simp [hj]

/-- Phases 1 and 2 with a hook that does nothing, started on an empty ledger. -/
theorem phase12_velocities (t : K) (s : NucleusAgent K) (hf : s.forces = []) (i : Nat)
    (hi : i < s.futureGeometry.noOfSpheres) :
    (s.advanceAndBuildIntForces noHook t).adjustGeometryByIntForces.velocities i =
      s.velocities i + s.incrTime •
        ((s.weights i / s.velocity_PersistenceTime) • s.velocity_CurrentlyDesired).divScalar
          (s.weights i) := by
  unfold adjustGeometryByIntForces
  rw [adjustGeometryByForces_velocities _ i (by rw [advanceAndBuildIntForces_noHook_eq]; exact hi)]
  rw [advanceAndBuildIntForces_noHook_eq]
  simp only [hf, List.nil_append]
  rw [netForce_map_range _ _ (fun j => rfl), netForce_map_range _ _ (fun j => rfl)]
  have h1 : ¬ (s.futureGeometry.noOfSpheres + i < s.futureGeometry.noOfSpheres) := by omega
  simp only [if_pos hi, if_neg h1, add_zero]
  rfl

/-- What phases 1 and 2 with a hook that does nothing leave alone, whatever the ledger. -/
theorem phase12_frame (t : K) (s : NucleusAgent K) :
    (s.advanceAndBuildIntForces noHook t).adjustGeometryByIntForces.forces = [] ∧
      (s.advanceAndBuildIntForces noHook t).adjustGeometryByIntForces.weights = s.weights ∧
      (s.advanceAndBuildIntForces noHook t).adjustGeometryByIntForces.futureGeometry.noOfSpheres =
        s.futureGeometry.noOfSpheres ∧
      (s.advanceAndBuildIntForces noHook t).adjustGeometryByIntForces.incrTime = s.incrTime ∧
      (s.advanceAndBuildIntForces noHook t).adjustGeometryByIntForces.velocity_PersistenceTime =
        s.velocity_PersistenceTime ∧
      (s.advanceAndBuildIntForces noHook t).adjustGeometryByIntForces.velocity_CurrentlyDesired =
        s.velocity_CurrentlyDesired ∧
      (s.advanceAndBuildIntForces noHook t).adjustGeometryByIntForces.geometryAlias =
        s.geometryAlias := by
  unfold adjustGeometryByIntForces
  obtain ⟨h1, h2, h3, h4, -, -⟩ :=
    adjustGeometryByForces_frame (s.advanceAndBuildIntForces noHook t)
  refine ⟨adjustGeometryByForces_forces _, ?_, ?_, ?_, ?_, ?_, ?_⟩
  · rw [adjustGeometryByForces_weights, advanceAndBuildIntForces_noHook_eq]
  · rw [adjustGeometryByForces_noOfSpheres, advanceAndBuildIntForces_noHook_eq]
  · rw [h1, advanceAndBuildIntForces_noHook_eq]
  · rw [h2, advanceAndBuildIntForces_noHook_eq]
  · rw [h3, advanceAndBuildIntForces_noHook_eq]
  · rw [h4, advanceAndBuildIntForces_noHook_eq]

/-- Phases 3 and 4 without nuclei pairs, started on an empty ledger. -/
theorem phase34_velocities (fexp fsqrt : K → K) (nearbyAgents : List (ShadowAgent K))
    (s : NucleusAgent K) (hf : s.forces = []) (hN : nucleiPairsOf nearbyAgents = [])
    (i : Nat) (hi : i < s.futureGeometry.noOfSpheres) :
    (s.collectExtForces fexp fsqrt nearbyAgents).adjustGeometryByExtForces.velocities i =
      s.velocities i + s.incrTime •
        ((-s.weights i / s.velocity_PersistenceTime) • s.velocities i +
          hinterSum fsqrt (yolkPairsOf nearbyAgents)).divScalar (s.weights i) := by
  unfold adjustGeometryByExtForces
  rw [adjustGeometryByForces_velocities _ i (by rw [collectExtForces_eq]; exact hi)]
  rw [collectExtForces_eq]
  simp only [hf, hN, List.nil_append, List.flatMap_nil, List.append_nil]
  rw [netForce_append, netForce_append, netForce_map_range _ _ (fun j => rfl),
    netForce_map_range _ _ (fun j => rfl), netForce_yolk, netForce_yolk]
  have h1 : ¬ (s.futureGeometry.noOfSpheres + i < s.futureGeometry.noOfSpheres) := by omega
  simp only [if_pos hi, if_neg h1, add_zero]
  rfl

/-- What phases 3 and 4 leave alone, whatever the ledger and the nearby agents. -/
theorem phase34_frame (fexp fsqrt : K → K) (nearbyAgents : List (ShadowAgent K))
    (s : NucleusAgent K) :
    (s.collectExtForces fexp fsqrt nearbyAgents).adjustGeometryByExtForces.forces = [] ∧
      (s.collectExtForces fexp fsqrt nearbyAgents).adjustGeometryByExtForces.weights =
        s.weights ∧
      (s.collectExtForces fexp fsqrt
        nearbyAgents).adjustGeometryByExtForces.futureGeometry.noOfSpheres =
        s.futureGeometry.noOfSpheres ∧
      (s.collectExtForces fexp fsqrt nearbyAgents).adjustGeometryByExtForces.incrTime =
        s.incrTime ∧
      (s.collectExtForces fexp fsqrt
        nearbyAgents).adjustGeometryByExtForces.velocity_PersistenceTime =
        s.velocity_PersistenceTime ∧
      (s.collectExtForces fexp fsqrt
        nearbyAgents).adjustGeometryByExtForces.velocity_CurrentlyDesired =
        s.velocity_CurrentlyDesired ∧
      (s.collectExtForces fexp fsqrt nearbyAgents).adjustGeometryByExtForces.geometryAlias =
        s.geometryAlias := by
  unfold adjustGeometryByExtForces
  obtain ⟨h1, h2, h3, h4, -, -⟩ :=
    adjustGeometryByForces_frame (s.collectExtForces fexp fsqrt nearbyAgents)
  refine ⟨adjustGeometryByForces_forces _, ?_, ?_, ?_, ?_, ?_, ?_⟩
  · rw [adjustGeometryByForces_weights, collectExtForces_eq]
  · rw [adjustGeometryByForces_noOfSpheres, collectExtForces_eq]
  · rw [h1, collectExtForces_eq]
  · rw [h2, collectExtForces_eq]
  · rw [h3, collectExtForces_eq]
  · rw [h4, collectExtForces_eq]

theorem phase12_centres (t : K) (s : NucleusAgent K) (i : Nat)
    (hi : i < s.futureGeometry.noOfSpheres) :
    (s.advanceAndBuildIntForces noHook t).adjustGeometryByIntForces.futureGeometry.centres i =
      s.futureGeometry.centres i + s.incrTime •
        (s.advanceAndBuildIntForces noHook t).adjustGeometryByIntForces.velocities i := by
  unfold adjustGeometryByIntForces
  rw [adjustGeometryByForces_centres _ i (by rw [advanceAndBuildIntForces_noHook_eq]; exact hi)]
  rw [advanceAndBuildIntForces_noHook_eq]

theorem phase34_centres (fexp fsqrt : K → K) (nearbyAgents : List (ShadowAgent K))
    (s : NucleusAgent K) (i : Nat) (hi : i < s.futureGeometry.noOfSpheres) :
    (s.collectExtForces fexp fsqrt nearbyAgents).adjustGeometryByExtForces.futureGeometry.centres
        i =
      s.futureGeometry.centres i + s.incrTime •
        (s.collectExtForces fexp fsqrt nearbyAgents).adjustGeometryByExtForces.velocities i := by
  unfold adjustGeometryByExtForces
  rw [adjustGeometryByForces_centres _ i (by rw [collectExtForces_eq]; exact hi)]
  rw [collectExtForces_eq]

/-- What a whole round with a hook that does nothing leaves alone, whatever the ledger and the
nearby agents; the ledger is empty after it. -/
theorem tick_frame (fexp fsqrt : K → K) (t : K) (nearbyAgents : List (ShadowAgent K))
    (s : NucleusAgent K) :
    (tick noHook fexp fsqrt t nearbyAgents s).forces = [] ∧
      (tick noHook fexp fsqrt t nearbyAgents s).weights = s.weights ∧
      (tick noHook fexp fsqrt t nearbyAgents s).futureGeometry.noOfSpheres =
        s.futureGeometry.noOfSpheres ∧
      (tick noHook fexp fsqrt t nearbyAgents s).incrTime = s.incrTime ∧
      (tick noHook fexp fsqrt t nearbyAgents s).velocity_PersistenceTime =
        s.velocity_PersistenceTime ∧
      (tick noHook fexp fsqrt t nearbyAgents s).velocity_CurrentlyDesired =
        s.velocity_CurrentlyDesired := by
  unfold tick
  rw [publishGeometry_eq]
  obtain ⟨a1, a2, a3, a4, a5, a6, -⟩ := phase12_frame t s
  obtain ⟨b1, b2, b3, b4, b5, b6, -⟩ := phase34_frame fexp fsqrt nearbyAgents
    (s.advanceAndBuildIntForces noHook t).adjustGeometryByIntForces
  exact ⟨b1, b2.trans a2, b3.trans a3, b4.trans a4, b5.trans a5, b6.trans a6⟩

/-- The velocity of a sphere of unit weight after a whole round without nuclei and yolk pairs,
started on an empty ledger: with `a = dt / tau` it is `(1 - a) * (u + a * v)`. -/
theorem tick_velocity_unit_weight (fexp fsqrt : K → K) (t : K)
    (nearbyAgents : List (ShadowAgent K)) (s : NucleusAgent K) (hf : s.forces = [])
    (hN : nucleiPairsOf nearbyAgents = []) (hY : yolkPairsOf nearbyAgents = [])
    (i : Nat) (hi : i < s.futureGeometry.noOfSpheres) (hw : s.weights i = 1) :
    (tick noHook fexp fsqrt t nearbyAgents s).velocities i =
      (1 - s.incrTime / s.velocity_PersistenceTime) •
        (s.velocities i +
          (s.incrTime / s.velocity_PersistenceTime) • s.velocity_CurrentlyDesired) := by
  obtain ⟨a1, a2, a3, a4, a5, a6, -⟩ := phase12_frame t s
  have h12 := phase12_velocities t s hf i hi
  have h34 := phase34_velocities fexp fsqrt nearbyAgents
    (s.advanceAndBuildIntForces noHook t).adjustGeometryByIntForces a1 hN i (by rw [a3]; exact hi)
  have hp : (tick noHook fexp fsqrt t nearbyAgents s).velocities i =
      ((s.advanceAndBuildIntForces noHook t).adjustGeometryByIntForces.collectExtForces fexp fsqrt
        nearbyAgents).adjustGeometryByExtForces.velocities i := by
    unfold tick
    rw [publishGeometry_eq]
    rfl
  rw [hp, h34, h12, a2, a4, a5, hw, hY]
  ext <;> simp [hinterSum, Vector3d.divScalar, div_eq_mul_inv] <;> ring

/-- After at least one round with a hook that does nothing the ledger is empty, and the
parameters of the motion are those of the start. -/
theorem runTicks_frame (fexp fsqrt : K → K) (times : Nat → K)
    (nearby : Nat → List (ShadowAgent K)) (s : NucleusAgent K) (k : Nat) :
    (0 < k → (runTicks noHook fexp fsqrt times nearby k s).forces = []) ∧
      (runTicks noHook fexp fsqrt times nearby k s).weights = s.weights ∧
      (runTicks noHook fexp fsqrt times nearby k s).futureGeometry.noOfSpheres =
        s.futureGeometry.noOfSpheres ∧
      (runTicks noHook fexp fsqrt times nearby k s).incrTime = s.incrTime ∧
      (runTicks noHook fexp fsqrt times nearby k s).velocity_PersistenceTime =
        s.velocity_PersistenceTime ∧
      (runTicks noHook fexp fsqrt times nearby k s).velocity_CurrentlyDesired =
        s.velocity_CurrentlyDesired := by
  induction k with
  | zero => exact ⟨fun h => absurd h (lt_irrefl _), rfl, rfl, rfl, rfl, rfl⟩
  | succ k ih =>
    obtain ⟨-, i2, i3, i4, i5, i6⟩ := ih
    obtain ⟨t1, t2, t3, t4, t5, t6⟩ := tick_frame fexp fsqrt (times k) (nearby k)
      (runTicks noHook fexp fsqrt times nearby k s)
    exact ⟨fun _ => t1, t2.trans i2, t3.trans i3, t4.trans i4, t5.trans i5, t6.trans i6⟩

/-- A real sequence that from index 1 on follows `x (k+1) - L = r * (x k - L)` with
`0 <= r < 1` converges to `L`. -/
theorem tendsto_of_contraction (x : Nat → ℝ) (r L : ℝ) (hr0 : 0 ≤ r) (hr1 : r < 1)
    (h : ∀ k, x (k + 2) - L = r * (x (k + 1) - L)) :
    Filter.Tendsto x Filter.atTop (nhds L) := by
  have hk : ∀ k, x (k + 1) = L + r ^ k * (x 1 - L) := by
    intro k
    induction k with
    | zero => simp
    | succ k ih =>
      have := h k
      rw [ih] at this
      rw [pow_succ]
      linarith
  have hp : Filter.Tendsto (fun k => L + r ^ k * (x 1 - L)) Filter.atTop (nhds L) := by
    have h0 := tendsto_pow_atTop_nhds_zero_of_lt_one hr0 hr1
    have h1 := (h0.mul_const (x 1 - L)).const_add L
    simpa using h1
  have hs : Filter.Tendsto (fun k => x (k + 1)) Filter.atTop (nhds L) := by
    have : (fun k => x (k + 1)) = fun k => L + r ^ k * (x 1 - L) := funext hk
    rw [this]
    exact hp
  exact (Filter.tendsto_add_atTop_iff_nat 1).mp hs

/-- The velocity of a single sphere of unit weight over whole rounds without nuclei and yolk
pairs: it converges to `(1 - dt/tau) * v`, whatever the velocity and the ledger at the start. -/
theorem runTicks_velocity_tendsto (times : Nat → ℝ) (nearby : Nat → List (ShadowAgent ℝ))
    (s : NucleusAgent ℝ) (hn : s.futureGeometry.noOfSpheres = 1) (hw : s.weights 0 = 1)
    (hdt : 0 < s.incrTime) (hlt : s.incrTime < s.velocity_PersistenceTime)
    (hnear : ∀ k, nucleiPairsOf (nearby k) = [] ∧ yolkPairsOf (nearby k) = []) :
    TendstoVec (fun k => (runTicks noHook Real.exp Real.sqrt times nearby k s).velocities 0)
      ((1 - s.incrTime / s.velocity_PersistenceTime) • s.velocity_CurrentlyDesired) := by
  have htau : 0 < s.velocity_PersistenceTime := lt_trans hdt hlt
  have ha0 : 0 < s.incrTime / s.velocity_PersistenceTime := div_pos hdt htau
  have ha1 : s.incrTime / s.velocity_PersistenceTime < 1 := (div_lt_one htau).mpr hlt
  have hstep : ∀ k,
      (runTicks noHook Real.exp Real.sqrt times nearby (k + 2) s).velocities 0 =
        (1 - s.incrTime / s.velocity_PersistenceTime) •
          ((runTicks noHook Real.exp Real.sqrt times nearby (k + 1) s).velocities 0 +
            (s.incrTime / s.velocity_PersistenceTime) • s.velocity_CurrentlyDesired) := by
    intro k
    obtain ⟨f1, f2, f3, f4, f5, f6⟩ :=
      runTicks_frame Real.exp Real.sqrt times nearby s (k + 1)
    have h := tick_velocity_unit_weight Real.exp Real.sqrt (times (k + 1)) (nearby (k + 1))
      (runTicks noHook Real.exp Real.sqrt times nearby (k + 1) s) (f1 (Nat.succ_pos k))
      (hnear (k + 1)).1 (hnear (k + 1)).2 0 (by rw [f3, hn]; exact Nat.one_pos)
      (by rw [f2]; exact hw)
    rw [f4, f5, f6] at h
    exact h
  refine ⟨?_, ?_, ?_⟩
  · apply tendsto_of_contraction _ (1 - s.incrTime / s.velocity_PersistenceTime) _
      (by linarith) (by linarith)
    intro k
    have := congrArg Vector3d.x (hstep k)
    simp only [Vector3d.smul_x, Vector3d.add_x] at this ⊢
    rw [this]; ring
  · apply tendsto_of_contraction _ (1 - s.incrTime / s.velocity_PersistenceTime) _
      (by linarith) (by linarith)
    intro k
    have := congrArg Vector3d.y (hstep k)
    simp only [Vector3d.smul_y, Vector3d.add_y] at this ⊢
    rw [this]; ring
  · apply tendsto_of_contraction _ (1 - s.incrTime / s.velocity_PersistenceTime) _
      (by linarith) (by linarith)
    intro k
    have := congrArg Vector3d.z (hstep k)
    simp only [Vector3d.smul_z, Vector3d.add_z] at this ⊢
    rw [this]; ring

/-! ## Sphere counts -/

theorem advanceAndBuildIntForces_eq (advanceAgent : K → NucleusAgent K → NucleusAgent K)
    (t : K) (s : NucleusAgent K) :
    s.advanceAndBuildIntForces advanceAgent t =
      { advanceAgent t s with
        forces := (advanceAgent t s).forces ++
          (List.range (advanceAgent t s).futureGeometry.noOfSpheres).map
            (advanceAgent t s).drivingForce
        currTime := (advanceAgent t s).currTime + (advanceAgent t s).incrTime } := by
  unfold advanceAndBuildIntForces
  simp only []
  rw [drivingLoop_eq]

theorem adjustGeometryByForces_counts (s : NucleusAgent K) :
    s.adjustGeometryByForces.futureGeometry.noOfSpheres = s.futureGeometry.noOfSpheres ∧
      s.adjustGeometryByForces.geometryAlias.noOfSpheres = s.geometryAlias.noOfSpheres :=
  ⟨adjustGeometryByForces_noOfSpheres s, by rw [(adjustGeometryByForces_frame s).2.2.2.1]⟩

theorem collectExtForces_counts (fexp fsqrt : K → K) (nearbyAgents : List (ShadowAgent K))
    (s : NucleusAgent K) :
    (s.collectExtForces fexp fsqrt nearbyAgents).futureGeometry.noOfSpheres =
        s.futureGeometry.noOfSpheres ∧
      (s.collectExtForces fexp fsqrt nearbyAgents).geometryAlias.noOfSpheres =
        s.geometryAlias.noOfSpheres := by
  rw [collectExtForces_eq]
  exact ⟨rfl, rfl⟩

theorem publishGeometry_counts (s : NucleusAgent K) :
    s.publishGeometry.futureGeometry.noOfSpheres = s.futureGeometry.noOfSpheres ∧
      s.publishGeometry.geometryAlias.noOfSpheres = s.geometryAlias.noOfSpheres := by
  rw [publishGeometry_eq]
  exact ⟨rfl, rfl⟩

theorem advanceAndBuildIntForces_counts (advanceAgent : K → NucleusAgent K → NucleusAgent K)
    (t : K) (s : NucleusAgent K) :
    (s.advanceAndBuildIntForces advanceAgent t).futureGeometry.noOfSpheres =
        (advanceAgent t s).futureGeometry.noOfSpheres ∧
      (s.advanceAndBuildIntForces advanceAgent t).geometryAlias.noOfSpheres =
        (advanceAgent t s).geometryAlias.noOfSpheres := by
  rw [advanceAndBuildIntForces_eq]
  exact ⟨rfl, rfl⟩

/-! ## Proximity pairs and directions -/

theorem mem_nucleiPairsOf (nearbyAgents : List (ShadowAgent K)) (pp : ProximityPair K)
    (h : pp ∈ nucleiPairsOf nearbyAgents) :
    ∃ sa ∈ nearbyAgents, pp.callerHint = sa.getVelocityOfSphere := by
  unfold nucleiPairsOf at h
  obtain ⟨sa, hsa, hpp⟩ := List.mem_flatMap.mp h
  refine ⟨sa, hsa, ?_⟩
  split at hpp
  · obtain ⟨q, -, rfl⟩ := List.mem_map.mp hpp
    rfl
  · exact absurd hpp (List.not_mem_nil _)

theorem len2_changeToUnitOrZero (a : Vector3d ℝ) (h : a ≠ 0) :
    (a.changeToUnitOrZero Real.sqrt).len2 = 1 := by
  have hp := len2_pos a h
  have hs : 0 < Real.sqrt a.len2 := Real.sqrt_pos.mpr hp
  have hm : Real.sqrt a.len2 * Real.sqrt a.len2 = a.len2 := Real.mul_self_sqrt hp.le
  rw [changeToUnitOrZero_eq a h, len2_smul]
  unfold Vector3d.len
  field_simp

/-! ## The normal force scale -/

theorem bodyScale_eq_max (d : K) :
    bodyScale d =
      fstrength_overlap_level + fstrength_overlap_scale * max (-d - fstrength_overlap_depth) 0 := by
  unfold bodyScale
  split
  · rename_i h
    rw [max_eq_left (by linarith)]
  · rename_i h
    rw [max_eq_right (by linarith), mul_zero, add_zero]

theorem specNormalScale_of_pos (d : ℝ) (h : 0 < d) :
    0 ≤ specNormalScale Real.exp d ∧ specNormalScale Real.exp d < fstrength_overlap_level := by
  have hlev : (0 : ℝ) < fstrength_overlap_level := by unfold fstrength_overlap_level; norm_num
  have hrep : (0 : ℝ) < fstrength_rep_scale := by unfold fstrength_rep_scale; norm_num
  unfold specNormalScale
  rw [if_neg (not_le.mpr h)]
  split
  · have he : Real.exp (-d / fstrength_rep_scale) < 1 := by
      rw [Real.exp_lt_one_iff]
      exact div_neg_of_neg_of_pos (by linarith) hrep
    have hp := Real.exp_pos (-d / fstrength_rep_scale)
    constructor
    · positivity
    · nlinarith
  · exact ⟨le_refl _, hlev⟩

theorem specNormalScale_of_nonpos (d : ℝ) (h : d ≤ 0) :
    fstrength_overlap_level ≤ specNormalScale Real.exp d := by
  have hsc : (0 : ℝ) ≤ fstrength_overlap_scale := by unfold fstrength_overlap_scale; norm_num
  unfold specNormalScale
  rw [if_pos h]
  have := mul_nonneg hsc (le_max_right (-d - fstrength_overlap_depth) 0)
  linarith

theorem specNormalScale_antitone (d1 d2 : ℝ) (h : d1 ≤ d2) :
    specNormalScale Real.exp d2 ≤ specNormalScale Real.exp d1 := by
  have hsc : (0 : ℝ) ≤ fstrength_overlap_scale := by unfold fstrength_overlap_scale; norm_num
  have hlev : (0 : ℝ) < fstrength_overlap_level := by unfold fstrength_overlap_level; norm_num
  have hrep : (0 : ℝ) < fstrength_rep_scale := by unfold fstrength_rep_scale; norm_num
  by_cases h2 : d2 ≤ 0
  · have h1 : d1 ≤ 0 := le_trans h h2
    unfold specNormalScale
    rw [if_pos h1, if_pos h2]
    have : max (-d2 - fstrength_overlap_depth) 0 ≤ max (-d1 - fstrength_overlap_depth) 0 :=
      max_le_max (by linarith) (le_refl _)
    have := mul_le_mul_of_nonneg_left this hsc
    linarith
  · have h2' : 0 < d2 := not_le.mp h2
    by_cases h1 : d1 ≤ 0
    · exact le_trans (specNormalScale_of_pos d2 h2').2.le (specNormalScale_of_nonpos d1 h1)
    · have h1' : 0 < d1 := not_le.mp h1
      by_cases h3 : d2 < 3
      · have h13 : d1 < 3 := lt_of_le_of_lt h h3
        unfold specNormalScale
        rw [if_neg h1, if_neg h2, if_pos h3, if_pos h13]
        apply mul_le_mul_of_nonneg_left _ hlev.le
        apply Real.exp_le_exp.mpr
        apply div_le_div_of_nonneg_right _ hrep.le
        linarith
      · have e : specNormalScale Real.exp d2 = 0 := by
          unfold specNormalScale
          rw [if_neg h2, if_neg h3]
        rw [e]
        exact (specNormalScale_of_pos d1 h1').1

/-! ## Sphere indices of ledger entries -/

theorem hint_of_mem_map_range (n : Nat) (g : Nat → ForceVector3d K)
    (hg : ∀ j, (g j).hint = (j : Int)) (f : ForceVector3d K)
    (hf : f ∈ (List.range n).map g) : 0 ≤ f.hint ∧ f.hint < (n : Int) := by
  obtain ⟨j, hj, rfl⟩ := List.mem_map.mp hf
  rw [hg j]
  have := List.mem_range.mp hj
  omega

theorem hint_of_mem_nucleusPairForces (fexp fsqrt : K → K) (s : NucleusAgent K)
    (pp : ProximityPair K) (f : ForceVector3d K)
    (hf : f ∈ nucleusPairForces fexp fsqrt s pp) : f.hint = pp.localHint := by
  unfold nucleusPairForces at hf
  split at hf
  · split at hf
    · rw [List.mem_singleton] at hf
      subst hf
      rfl
    · exact absurd hf (List.not_mem_nil _)
  · simp only [List.mem_cons, List.mem_singleton, List.not_mem_nil, or_false] at hf
    rcases hf with hf | hf <;> subst hf <;> rfl

theorem hint_of_mem_yolkPairForces (fsqrt : K → K) (s : NucleusAgent K)
    (pp : ProximityPair K) (f : ForceVector3d K)
    (hf : f ∈ yolkPairForces fsqrt s pp) :
    0 ≤ f.hint ∧ f.hint < (s.futureGeometry.noOfSpheres : Int) := by
  rw [yolkPairForces_eq] at hf
  split at hf
  · exact hint_of_mem_map_range _ _ (fun _ => rfl) f hf
  · exact absurd hf (List.not_mem_nil _)

/-- For an entry whose hint is a sphere index the accumulation statement `accels[f.hint] += f`
takes its in-buffer branch. -/
theorem accumulate_of_inRange (r : NucleusAgent K) (f : ForceVector3d K)
    (h : 0 ≤ f.hint ∧ f.hint < (r.futureGeometry.noOfSpheres : Int)) :
    r.accumulate f =
      { r with accels :=
          Function.update r.accels f.hint.toNat (r.accels f.hint.toNat + f.toVector3d) } := by
  unfold accumulate
  rw [if_pos ⟨h.1, by omega⟩]

/-- The entries that phase 3 appends carry sphere indices of the chain, provided the nuclei
pairs do. -/
theorem collectExtForces_emitted_inRange (fexp fsqrt : K → K)
    (nearbyAgents : List (ShadowAgent K)) (s : NucleusAgent K)
    (hN : ∀ pp ∈ nucleiPairsOf nearbyAgents,
      0 ≤ pp.localHint ∧ pp.localHint < (s.futureGeometry.noOfSpheres : Int))
    (f : ForceVector3d K)
    (hf : f ∈ (List.range s.futureGeometry.noOfSpheres).map s.frictionForce ++
      (nucleiPairsOf nearbyAgents).flatMap (nucleusPairForces fexp fsqrt s) ++
      (yolkPairsOf nearbyAgents).flatMap (yolkPairForces fsqrt s)) :
    0 ≤ f.hint ∧ f.hint < (s.futureGeometry.noOfSpheres : Int) := by
  simp only [List.mem_append, List.mem_flatMap] at hf
  rcases hf with (hf | ⟨pp, hpp, hf⟩) | ⟨pp, -, hf⟩
  · exact hint_of_mem_map_range _ _ (fun _ => rfl) f hf
  · rw [hint_of_mem_nucleusPairForces fexp fsqrt s pp f hf]
    exact hN pp hpp
  · exact hint_of_mem_yolkPairForces fsqrt s pp f hf

/-! ## Rigid motion -/

/-- The ledger is empty whenever a round starts. -/
theorem tickStart_forces (fexp fsqrt : K → K) (s : NucleusAgent K)
    (h : TickStart fexp fsqrt s) : s.forces = [] := by
  cases h with
  | init shape ct it fa fw => rfl
  | round advanceAgent t nearbyAgents s0 _ =>
    unfold tick
    rw [publishGeometry_eq]
    exact adjustGeometryByForces_forces
      (collectExtForces fexp fsqrt nearbyAgents
        (adjustGeometryByIntForces (advanceAndBuildIntForces advanceAgent t s0)))

/-- Phases 1 to 4 started on an empty ledger, with a hook that does nothing and without nuclei
pairs, move a chain of equal weights and equal velocities rigidly. -/
theorem phases1to4_rigid (fexp fsqrt : K → K) (t : K) (nearbyAgents : List (ShadowAgent K))
    (s : NucleusAgent K) (w : K) (u : Vector3d K) (hw0 : w ≠ 0)
    (hw : ∀ i, i < s.futureGeometry.noOfSpheres → s.weights i = w)
    (hu : ∀ i, i < s.futureGeometry.noOfSpheres → s.velocities i = u)
    (hf : s.forces = []) (hN : nucleiPairsOf nearbyAgents = []) :
    (∃ u2 T : Vector3d K, ∀ i, i < s.futureGeometry.noOfSpheres →
      (phases1to4 noHook fexp fsqrt t nearbyAgents s).velocities i = u2 ∧
      (phases1to4 noHook fexp fsqrt t nearbyAgents s).futureGeometry.centres i =
        s.futureGeometry.centres i + T) ∧
    (∀ i j, i < s.futureGeometry.noOfSpheres → j < s.futureGeometry.noOfSpheres →
      (phases1to4 noHook fexp fsqrt t nearbyAgents s).futureGeometry.centres i -
          (phases1to4 noHook fexp fsqrt t nearbyAgents s).futureGeometry.centres j =
        s.futureGeometry.centres i - s.futureGeometry.centres j) := by
  have _ := hw0
  obtain ⟨a1, a2, a3, a4, a5, a6, -⟩ := phase12_frame t s
  have key : ∀ i, i < s.futureGeometry.noOfSpheres →
      (phases1to4 noHook fexp fsqrt t nearbyAgents s).velocities i =
        (u + s.incrTime • ((w / s.velocity_PersistenceTime) •
            s.velocity_CurrentlyDesired).divScalar w) +
          s.incrTime • ((-w / s.velocity_PersistenceTime) •
            (u + s.incrTime • ((w / s.velocity_PersistenceTime) •
              s.velocity_CurrentlyDesired).divScalar w) +
            hinterSum fsqrt (yolkPairsOf nearbyAgents)).divScalar w ∧
      (phases1to4 noHook fexp fsqrt t nearbyAgents s).futureGeometry.centres i =
        s.futureGeometry.centres i +
          (s.incrTime • (u + s.incrTime • ((w / s.velocity_PersistenceTime) •
              s.velocity_CurrentlyDesired).divScalar w) +
            s.incrTime • ((u + s.incrTime • ((w / s.velocity_PersistenceTime) •
              s.velocity_CurrentlyDesired).divScalar w) +
              s.incrTime • ((-w / s.velocity_PersistenceTime) •
                (u + s.incrTime • ((w / s.velocity_PersistenceTime) •
                  s.velocity_CurrentlyDesired).divScalar w) +
                hinterSum fsqrt (yolkPairsOf nearbyAgents)).divScalar w)) := by
    intro i hi
    have h12 := phase12_velocities t s hf i hi
    have c12 := phase12_centres t s i hi
    have hi2 : i < (s.advanceAndBuildIntForces noHook
        t).adjustGeometryByIntForces.futureGeometry.noOfSpheres := by rw [a3]; exact hi
    have h34 := phase34_velocities fexp fsqrt nearbyAgents
      (s.advanceAndBuildIntForces noHook t).adjustGeometryByIntForces a1 hN i hi2
    have c34 := phase34_centres fexp fsqrt nearbyAgents
      (s.advanceAndBuildIntForces noHook t).adjustGeometryByIntForces i hi2
    rw [hw i hi, hu i hi] at h12
    rw [h12, a2, a4, a5, hw i hi] at h34
    rw [h34, c12, h12, a4] at c34
    unfold phases1to4
    rw [h34, c34]
    exact ⟨rfl, by rw [add_assoc]⟩
  refine ⟨⟨_, _, key⟩, ?_⟩
  intro i j hi hj
  rw [(key i hi).2, (key j hj).2]
  abel

/-! ## Claims -/

/-- C1: for every agent state whose weights are non-zero, and whose ledger entries carry sphere
indices (`0 <= hint < noOfSpheres`, as every entry written by the phases does), and every sphere
`i < noOfSpheres`, after `adjustGeometryByForces` the velocity of sphere `i` is the old velocity
plus `dt` times the net force on `i` divided by `weights[i]`, the internal centre of `i` is the old
centre plus `dt` times that new velocity, and radii, weights and the sphere count are
unchanged. -/
theorem C1_integration_pass (s : NucleusAgent K)
    (hw : ∀ i, i < s.futureGeometry.noOfSpheres → s.weights i ≠ 0)
    (hh : ∀ f ∈ s.forces, 0 ≤ f.hint ∧ f.hint < (s.futureGeometry.noOfSpheres : Int))
    (i : Nat) (hi : i < s.futureGeometry.noOfSpheres) :
    s.adjustGeometryByForces.velocities i =
        s.velocities i + s.incrTime • (netForce s.forces i).divScalar (s.weights i) ∧
      s.adjustGeometryByForces.futureGeometry.centres i =
        s.futureGeometry.centres i + s.incrTime • s.adjustGeometryByForces.velocities i ∧
      s.adjustGeometryByForces.futureGeometry.radii = s.futureGeometry.radii ∧
      s.adjustGeometryByForces.weights = s.weights ∧
      s.adjustGeometryByForces.futureGeometry.noOfSpheres = s.futureGeometry.noOfSpheres := by
  have _ := hw i hi
  have h0 : netForce s.forces (s.futureGeometry.noOfSpheres + i) = 0 :=
    netForce_eq_zero _ _ (fun f hf => by have := hh f hf; omega)
  refine ⟨?_, adjustGeometryByForces_centres s i hi, adjustGeometryByForces_radii s,
    adjustGeometryByForces_weights s, adjustGeometryByForces_noOfSpheres s⟩
  rw [adjustGeometryByForces_velocities s i hi, h0, add_zero]

/-- C1, a concrete run: the agent `pushedAgent` over the rationals. -/
theorem C1_integration_pass_witness :
    (∀ i, i < (pushedAgent : NucleusAgent ℚ).futureGeometry.noOfSpheres →
        (pushedAgent : NucleusAgent ℚ).weights i ≠ 0) ∧
      (∀ f ∈ (pushedAgent : NucleusAgent ℚ).forces,
        0 ≤ f.hint ∧ f.hint < ((pushedAgent : NucleusAgent ℚ).futureGeometry.noOfSpheres : Int)) ∧
      (pushedAgent : NucleusAgent ℚ).adjustGeometryByForces.velocities 0 = ⟨1, 0, 0⟩ ∧
      (pushedAgent : NucleusAgent ℚ).adjustGeometryByForces.futureGeometry.centres 0 =
        ⟨1, 0, 0⟩ := by
  have hw : ∀ i, i < (pushedAgent : NucleusAgent ℚ).futureGeometry.noOfSpheres →
      (pushedAgent : NucleusAgent ℚ).weights i ≠ 0 := by
    intro i _; simp [pushedAgent, restingAgent]
  have hh : ∀ f ∈ (pushedAgent : NucleusAgent ℚ).forces,
      0 ≤ f.hint ∧ f.hint < ((pushedAgent : NucleusAgent ℚ).futureGeometry.noOfSpheres : Int) := by
    intro f hf; simp [pushedAgent, restingAgent] at hf; subst hf
    simp [pushedAgent, restingAgent]
  have h := C1_integration_pass (pushedAgent : NucleusAgent ℚ) hw hh 0
    (by simp [pushedAgent, restingAgent])
  refine ⟨hw, hh, ?_, ?_⟩
  · rw [h.1]
    ext <;> simp [pushedAgent, restingAgent, velocities, netForce, Vector3d.divScalar]
  · rw [h.2.1, h.1]
    ext <;> simp [pushedAgent, restingAgent, velocities, netForce, Vector3d.divScalar]

/-- C2: for every agent state, whatever the ledger holds, the ledger is empty after
`adjustGeometryByIntForces` and after `adjustGeometryByExtForces`. -/
theorem C2_ledger_empty_after_integration (s : NucleusAgent K) :
    s.adjustGeometryByIntForces.forces = [] ∧ s.adjustGeometryByExtForces.forces = [] :=
  ⟨adjustGeometryByForces_forces s, adjustGeometryByForces_forces s⟩

/-- C3 (as amended): for every agent state whose ledger entries all carry a sphere index in
`[0, noOfSpheres)` and every sphere `i` of non-zero weight whose ledger entries sum to the zero
vector, one integration pass leaves the velocity of `i` unchanged and moves the internal centre of
`i` by `dt` times that velocity. -/
theorem C3_zero_net_force (s : NucleusAgent K)
    (hh : ∀ f ∈ s.forces, 0 ≤ f.hint ∧ f.hint < (s.futureGeometry.noOfSpheres : Int))
    (i : Nat) (hi : i < s.futureGeometry.noOfSpheres) (hw : s.weights i ≠ 0)
    (h0 : netForce s.forces i = 0) :
    s.adjustGeometryByForces.velocities i = s.velocities i ∧
      s.adjustGeometryByForces.futureGeometry.centres i =
        s.futureGeometry.centres i + s.incrTime • s.velocities i := by
  have _ := hw
  have h1 : netForce s.forces (s.futureGeometry.noOfSpheres + i) = 0 :=
    netForce_eq_zero _ _ (fun f hf => by have := hh f hf; omega)
  have hv : s.adjustGeometryByForces.velocities i = s.velocities i := by
    rw [adjustGeometryByForces_velocities s i hi, h0, h1]
    ext <;> simp [Vector3d.divScalar]
  exact ⟨hv, by rw [adjustGeometryByForces_centres s i hi, hv]⟩

/-- C3, a concrete run: in `balancedAgent` the two entries on sphere 0 cancel, the velocity
`(1,0,0)` is kept and the centre moves from the origin to `(1,0,0)`. -/
theorem C3_zero_net_force_witness :
    (∀ f ∈ (balancedAgent : NucleusAgent ℚ).forces,
        0 ≤ f.hint ∧ f.hint < ((balancedAgent : NucleusAgent ℚ).futureGeometry.noOfSpheres : Int)) ∧
      (balancedAgent : NucleusAgent ℚ).weights 0 ≠ 0 ∧
      netForce (balancedAgent : NucleusAgent ℚ).forces 0 = 0 ∧
      (balancedAgent : NucleusAgent ℚ).adjustGeometryByForces.velocities 0 = ⟨1, 0, 0⟩ ∧
      (balancedAgent : NucleusAgent ℚ).adjustGeometryByForces.futureGeometry.centres 0 =
        ⟨1, 0, 0⟩ := by
  have hh : ∀ f ∈ (balancedAgent : NucleusAgent ℚ).forces,
      0 ≤ f.hint ∧ f.hint < ((balancedAgent : NucleusAgent ℚ).futureGeometry.noOfSpheres : Int) := by
    intro f hf
    simp [balancedAgent, coastingAgent, restingAgent] at hf
    rcases hf with hf | hf <;> subst hf <;> simp [balancedAgent, coastingAgent, restingAgent]
  have hw : (balancedAgent : NucleusAgent ℚ).weights 0 ≠ 0 := by
    simp [balancedAgent, coastingAgent, restingAgent]
  have h0 : netForce (balancedAgent : NucleusAgent ℚ).forces 0 = 0 := by
    ext <;> simp [netForce, balancedAgent, coastingAgent, restingAgent]
  have h := C3_zero_net_force (balancedAgent : NucleusAgent ℚ) hh 0
    (by simp [balancedAgent, coastingAgent, restingAgent]) hw h0
  refine ⟨hh, hw, h0, ?_, ?_⟩
  · rw [h.1]; ext <;> simp [balancedAgent, coastingAgent, restingAgent, velocities]
  · rw [h.2]; ext <;> simp [balancedAgent, coastingAgent, restingAgent, velocities]

/-- C3, the claim as stated fails.  First, `coastingAgent` has an empty ledger, so sphere 0 has
zero net force, and its velocity is `(1,0,0)`; one integration pass with `dt = 1` moves the
internal centre of sphere 0 from the origin to `(1,0,0)`.  Second, in `aliasedAgent` no ledger
entry has sphere index 0, yet the entry with hint `1 = noOfSpheres` is added to the buffer cell
that holds `velocities[0]`, and the velocity of sphere 0 changes from zero to `(1,0,0)`. -/
theorem C3_counterexample :
    ((coastingAgent : NucleusAgent ℚ).forces = [] ∧
      netForce (coastingAgent : NucleusAgent ℚ).forces 0 = 0 ∧
      (coastingAgent : NucleusAgent ℚ).futureGeometry.centres 0 = 0 ∧
      (coastingAgent : NucleusAgent ℚ).adjustGeometryByForces.futureGeometry.centres 0 =
        ⟨1, 0, 0⟩ ∧
      (coastingAgent : NucleusAgent ℚ).adjustGeometryByForces.futureGeometry.centres 0 ≠
        (coastingAgent : NucleusAgent ℚ).futureGeometry.centres 0) ∧
    (netForce (aliasedAgent : NucleusAgent ℚ).forces 0 = 0 ∧
      (aliasedAgent : NucleusAgent ℚ).velocities 0 = 0 ∧
      (aliasedAgent : NucleusAgent ℚ).adjustGeometryByForces.velocities 0 = ⟨1, 0, 0⟩ ∧
      (aliasedAgent : NucleusAgent ℚ).adjustGeometryByForces.velocities 0 ≠
        (aliasedAgent : NucleusAgent ℚ).velocities 0) := by
  have hc : (coastingAgent : NucleusAgent ℚ).adjustGeometryByForces.futureGeometry.centres 0 =
      ⟨1, 0, 0⟩ := by
    ext <;>
    simp [adjustGeometryByForces, forLoop, integrateSphere, setAccel, setVelocity,
      setCentre, velocities, coastingAgent, restingAgent, Spheres.updateOwnAABB,
      Vector3d.ofScalar, Vector3d.divScalar, Function.update]
  have hv : (aliasedAgent : NucleusAgent ℚ).adjustGeometryByForces.velocities 0 = ⟨1, 0, 0⟩ := by
    ext <;>
    simp [adjustGeometryByForces, forLoop, integrateSphere, accumulate, setAccel, setVelocity,
      setCentre, velocities, aliasedAgent, restingAgent, Spheres.updateOwnAABB,
      Vector3d.ofScalar, Vector3d.divScalar, Function.update]
  have hne : (⟨1, 0, 0⟩ : Vector3d ℚ) ≠ 0 := fun h => by
    have := congrArg Vector3d.x h
    simp at this
  refine ⟨⟨rfl, by simp [netForce, coastingAgent, restingAgent], rfl, hc, ?_⟩,
    ⟨by simp [netForce, aliasedAgent, restingAgent], rfl, hv, ?_⟩⟩
  · rw [hc]; exact hne
  · rw [hv]; exact hne

/-- C4: for every nuclei proximity entry of phase 3 with signed distance `d <= 0` and
non-coincident surface points, the loop body emits a body force and a sliding force; the body
force is in the ledger, acts on sphere `localHint`, and its magnitude is `overlapLevel` when the
penetration `-d` is at most `overlapDepth` and `overlapLevel + overlapScale * (-d - overlapDepth)`
when it is larger; at penetration `overlapDepth` it is exactly `overlapLevel`, and with the
constants of the source penetration 1.0 gives 0.2 and penetration 0.5 gives 0.1. -/
theorem C4_body_force (s : NucleusAgent ℝ) (nearbyAgents : List (ShadowAgent ℝ))
    (pp : ProximityPair ℝ)
    (hpp : pp ∈ (s.collectExtForces Real.exp Real.sqrt nearbyAgents).proximityPairs_toNuclei)
    (hd : pp.distance ≤ 0) (hne : pp.localPos ≠ pp.otherPos) :
    ∃ body slide : ForceVector3d ℝ,
      nucleusPairForces Real.exp Real.sqrt s pp = [body, slide] ∧
      body ∈ (s.collectExtForces Real.exp Real.sqrt nearbyAgents).forces ∧
      body.type = ftype_body ∧ body.hint = pp.localHint ∧
      (-pp.distance ≤ fstrength_overlap_depth →
        body.toVector3d.len Real.sqrt = fstrength_overlap_level) ∧
      (fstrength_overlap_depth < -pp.distance →
        body.toVector3d.len Real.sqrt =
          fstrength_overlap_level +
            fstrength_overlap_scale * (-pp.distance - fstrength_overlap_depth)) ∧
      (-pp.distance = fstrength_overlap_depth →
        body.toVector3d.len Real.sqrt = fstrength_overlap_level) ∧
      (-pp.distance = 1 → body.toVector3d.len Real.sqrt = 2 / 10) ∧
      (-pp.distance = 5 / 10 → body.toVector3d.len Real.sqrt = 1 / 10) := by
  have hnd : ¬ (0 < pp.distance) := not_lt.mpr hd
  have hu : ((pp.otherPos - pp.localPos).changeToUnitOrZero Real.sqrt).len Real.sqrt = 1 :=
    len_changeToUnitOrZero _ (sub_ne_zero.mpr (Ne.symm hne))
  have hlen : ∀ c : ℝ, 0 ≤ c →
      (c • (pp.otherPos - pp.localPos).changeToUnitOrZero Real.sqrt).len Real.sqrt = c := by
    intro c hc
    rw [len_smul, hu, abs_of_nonneg hc, mul_one]
  rw [collectExtForces_eq] at hpp ⊢
  simp only [nucleusPairForces, if_neg hnd]
  refine ⟨_, _, rfl, ?_, rfl, rfl, ?_, ?_, ?_, ?_, ?_⟩
  · simp only [List.mem_append, List.mem_flatMap]
    refine Or.inl (Or.inr ⟨pp, hpp, ?_⟩)
    simp only [nucleusPairForces, if_neg hnd]
    exact List.mem_cons_self _ _
  · intro h
    have hb : bodyScale pp.distance = fstrength_overlap_level := by
      unfold bodyScale; rw [if_neg (not_lt.mpr h)]
    simp only [hb]
    exact hlen _ (by unfold fstrength_overlap_level; norm_num)
  · intro h
    have hb : bodyScale pp.distance = fstrength_overlap_level +
        fstrength_overlap_scale * (-pp.distance - fstrength_overlap_depth) := by
      unfold bodyScale; rw [if_pos h]
    simp only [hb]
    apply hlen
    unfold fstrength_overlap_level fstrength_overlap_scale fstrength_overlap_depth at *
    nlinarith
  · intro h
    have hb : bodyScale pp.distance = fstrength_overlap_level := by
      unfold bodyScale; rw [if_neg (by rw [h]; exact lt_irrefl _)]
    simp only [hb]
    exact hlen _ (by unfold fstrength_overlap_level; norm_num)
  · intro h
    have hb : bodyScale pp.distance = 2 / 10 := by
      unfold bodyScale fstrength_overlap_level fstrength_overlap_scale fstrength_overlap_depth
      rw [h, if_pos (by norm_num)]; norm_num
    simp only [hb]
    exact hlen _ (by norm_num)
  · intro h
    have hb : bodyScale pp.distance = 1 / 10 := by
      unfold bodyScale fstrength_overlap_level fstrength_overlap_scale fstrength_overlap_depth
      rw [h, if_neg (by norm_num)]
    simp only [hb]
    exact hlen _ (by norm_num)

/-- C4, a concrete run: the resting agent next to a nucleus whose pair has signed distance `-1`
(penetration 1.0). -/
theorem C4_body_force_witness :
    pairAt (-1) ∈ ((restingAgent : NucleusAgent ℝ).collectExtForces Real.exp Real.sqrt
        [nucleusAt (-1)]).proximityPairs_toNuclei ∧
      (pairAt (-1 : ℝ)).distance ≤ 0 ∧
      (pairAt (-1 : ℝ)).localPos ≠ (pairAt (-1 : ℝ)).otherPos ∧
      ∃ body slide : ForceVector3d ℝ,
        nucleusPairForces Real.exp Real.sqrt restingAgent (pairAt (-1)) = [body, slide] ∧
        body ∈ ((restingAgent : NucleusAgent ℝ).collectExtForces Real.exp Real.sqrt
          [nucleusAt (-1)]).forces ∧
        body.toVector3d.len Real.sqrt = 2 / 10 := by
  have hpp : pairAt (-1) ∈ ((restingAgent : NucleusAgent ℝ).collectExtForces Real.exp Real.sqrt
      [nucleusAt (-1)]).proximityPairs_toNuclei := by
    rw [collectExtForces_eq]
    have := nucleiPairsOf_nucleusAt [(-1 : ℝ)]
    simp only [List.map_cons, List.map_nil] at this
    simp only [this]
    exact List.mem_cons_self _ _
  have hd : (pairAt (-1 : ℝ)).distance ≤ 0 := by simp [pairAt]
  have hne : (pairAt (-1 : ℝ)).localPos ≠ (pairAt (-1 : ℝ)).otherPos := origin_ne_unitX
  obtain ⟨body, slide, h1, h2, -, -, -, -, -, h3, -⟩ :=
    C4_body_force restingAgent [nucleusAt (-1)] (pairAt (-1)) hpp hd hne
  exact ⟨hpp, hd, hne, body, slide, h1, h2, h3 (by simp [pairAt])⟩

/-- C5: for two nuclei proximity entries of phase 3 with non-coincident surface points and signed
distances `0 < d1 < d2 < 3.0`, each entry emits exactly one repulsion force, and the magnitude of
the one at `d1` is strictly greater than that of the one at `d2`; for every entry with `d >= 3.0`
nothing is emitted. -/
theorem C5_repulsion_decreasing (s : NucleusAgent ℝ) (nearbyAgents : List (ShadowAgent ℝ))
    (pp1 pp2 : ProximityPair ℝ)
    (h1 : pp1 ∈ (s.collectExtForces Real.exp Real.sqrt nearbyAgents).proximityPairs_toNuclei)
    (h2 : pp2 ∈ (s.collectExtForces Real.exp Real.sqrt nearbyAgents).proximityPairs_toNuclei)
    (hne1 : pp1.localPos ≠ pp1.otherPos) (hne2 : pp2.localPos ≠ pp2.otherPos)
    (hd1 : 0 < pp1.distance) (hlt : pp1.distance < pp2.distance) (hd2 : pp2.distance < 3) :
    (∃ f1 f2 : ForceVector3d ℝ,
      nucleusPairForces Real.exp Real.sqrt s pp1 = [f1] ∧
      nucleusPairForces Real.exp Real.sqrt s pp2 = [f2] ∧
      f1 ∈ (s.collectExtForces Real.exp Real.sqrt nearbyAgents).forces ∧
      f2 ∈ (s.collectExtForces Real.exp Real.sqrt nearbyAgents).forces ∧
      f1.type = ftype_repulsive ∧ f2.type = ftype_repulsive ∧
      f2.toVector3d.len Real.sqrt < f1.toVector3d.len Real.sqrt) ∧
    (∀ pp3 : ProximityPair ℝ, 3 ≤ pp3.distance →
      nucleusPairForces Real.exp Real.sqrt s pp3 = []) := by
  have hu : ∀ pp : ProximityPair ℝ, pp.localPos ≠ pp.otherPos → ∀ c : ℝ, 0 ≤ c →
      (c • (pp.localPos - pp.otherPos).changeToUnitOrZero Real.sqrt).len Real.sqrt = c := by
    intro pp hne c hc
    rw [len_smul, len_changeToUnitOrZero _ (sub_ne_zero.mpr hne), abs_of_nonneg hc, mul_one]
  have hlev : (0 : ℝ) < fstrength_overlap_level := by unfold fstrength_overlap_level; norm_num
  have hrep : (0 : ℝ) < fstrength_rep_scale := by unfold fstrength_rep_scale; norm_num
  have hd1' : pp1.distance < 3 := lt_trans hlt hd2
  have hd2' : 0 < pp2.distance := lt_trans hd1 hlt
  rw [collectExtForces_eq] at h1 h2 ⊢
  refine ⟨?_, ?_⟩
  · simp only [nucleusPairForces, if_pos hd1, if_pos hd1', if_pos hd2, if_pos hd2']
    refine ⟨_, _, rfl, rfl, ?_, ?_, rfl, rfl, ?_⟩
    · simp only [List.mem_append, List.mem_flatMap]
      refine Or.inl (Or.inr ⟨pp1, h1, ?_⟩)
      simp only [nucleusPairForces, if_pos hd1, if_pos hd1']
      exact List.mem_cons_self _ _
    · simp only [List.mem_append, List.mem_flatMap]
      refine Or.inl (Or.inr ⟨pp2, h2, ?_⟩)
      simp only [nucleusPairForces, if_pos hd2, if_pos hd2']
      exact List.mem_cons_self _ _
    · rw [hu pp1 hne1 _ (by positivity), hu pp2 hne2 _ (by positivity)]
      apply mul_lt_mul_of_pos_left _ hlev
      apply Real.exp_lt_exp.mpr
      apply div_lt_div_of_pos_right _ hrep
      linarith
  · intro pp3 h3
    have h30 : 0 < pp3.distance := by linarith
    simp only [nucleusPairForces, if_pos h30, if_neg (not_lt.mpr h3)]

/-- C5, a concrete run: the resting agent next to two nuclei with pairs at distances 1 and 2. -/
theorem C5_repulsion_decreasing_witness :
    pairAt 1 ∈ ((restingAgent : NucleusAgent ℝ).collectExtForces Real.exp Real.sqrt
        [nucleusAt 1, nucleusAt 2]).proximityPairs_toNuclei ∧
      pairAt 2 ∈ ((restingAgent : NucleusAgent ℝ).collectExtForces Real.exp Real.sqrt
        [nucleusAt 1, nucleusAt 2]).proximityPairs_toNuclei ∧
      (0 : ℝ) < (pairAt (1 : ℝ)).distance ∧
      (pairAt (1 : ℝ)).distance < (pairAt (2 : ℝ)).distance ∧
      (pairAt (2 : ℝ)).distance < 3 ∧
      ∃ f1 f2 : ForceVector3d ℝ,
        nucleusPairForces Real.exp Real.sqrt restingAgent (pairAt 1) = [f1] ∧
        nucleusPairForces Real.exp Real.sqrt restingAgent (pairAt 2) = [f2] ∧
        f2.toVector3d.len Real.sqrt < f1.toVector3d.len Real.sqrt := by
  have hN : ((restingAgent : NucleusAgent ℝ).collectExtForces Real.exp Real.sqrt
      [nucleusAt 1, nucleusAt 2]).proximityPairs_toNuclei = [pairAt 1, pairAt 2] := by
    rw [collectExtForces_eq]
    exact nucleiPairsOf_nucleusAt [(1 : ℝ), 2]
  have h1 : pairAt 1 ∈ ((restingAgent : NucleusAgent ℝ).collectExtForces Real.exp Real.sqrt
      [nucleusAt 1, nucleusAt 2]).proximityPairs_toNuclei := by
    rw [hN]; exact List.mem_cons_self _ _
  have h2 : pairAt 2 ∈ ((restingAgent : NucleusAgent ℝ).collectExtForces Real.exp Real.sqrt
      [nucleusAt 1, nucleusAt 2]).proximityPairs_toNuclei := by
    rw [hN]; exact List.mem_cons_of_mem _ (List.mem_cons_self _ _)
  have hd1 : (0 : ℝ) < (pairAt (1 : ℝ)).distance := by simp [pairAt]
  have hlt : (pairAt (1 : ℝ)).distance < (pairAt (2 : ℝ)).distance := by simp [pairAt]
  have hd2 : (pairAt (2 : ℝ)).distance < 3 := by norm_num [pairAt]
  obtain ⟨⟨f1, f2, e1, e2, -, -, -, -, hlen⟩, -⟩ :=
    C5_repulsion_decreasing restingAgent [nucleusAt 1, nucleusAt 2] (pairAt 1) (pairAt 2)
      h1 h2 origin_ne_unitX origin_ne_unitX hd1 hlt hd2
  exact ⟨h1, h2, hd1, hlt, hd2, f1, f2, e1, e2, hlen⟩

/-- C6: for every nuclei proximity entry of phase 3 with `0 < d < 3.0` exactly one force is
emitted; it is in the ledger, is attached to sphere `localHint`, and its vector is
`overlapLevel * exp(-d / repulsionScale)` times the normalised `localPos - otherPos`.  For
non-coincident points the normalised vector is `localPos - otherPos` divided by its (positive)
length, it has length 1, and the force has magnitude `overlapLevel * exp(-d / repulsionScale)`;
for `d = 1.0` that is `0.1 * exp(-1.0/0.6)`. -/
theorem C6_repulsion_force (s : NucleusAgent ℝ) (nearbyAgents : List (ShadowAgent ℝ))
    (pp : ProximityPair ℝ)
    (hpp : pp ∈ (s.collectExtForces Real.exp Real.sqrt nearbyAgents).proximityPairs_toNuclei)
    (hd0 : 0 < pp.distance) (hd3 : pp.distance < 3) :
    nucleusPairForces Real.exp Real.sqrt s pp =
        [ { toVector3d := (fstrength_overlap_level *
              Real.exp (-pp.distance / fstrength_rep_scale)) •
                (pp.localPos - pp.otherPos).changeToUnitOrZero Real.sqrt
            base := s.futureGeometry.centres pp.localHint.toNat
            hint := pp.localHint
            type := ftype_repulsive } ] ∧
      (∀ f ∈ nucleusPairForces Real.exp Real.sqrt s pp,
        f ∈ (s.collectExtForces Real.exp Real.sqrt nearbyAgents).forces) ∧
      (pp.localPos ≠ pp.otherPos →
        (pp.localPos - pp.otherPos).changeToUnitOrZero Real.sqrt =
            (1 / (pp.localPos - pp.otherPos).len Real.sqrt) • (pp.localPos - pp.otherPos) ∧
          0 < (pp.localPos - pp.otherPos).len Real.sqrt ∧
          ((pp.localPos - pp.otherPos).changeToUnitOrZero Real.sqrt).len Real.sqrt = 1 ∧
          ∀ f ∈ nucleusPairForces Real.exp Real.sqrt s pp,
            f.toVector3d.len Real.sqrt =
              fstrength_overlap_level * Real.exp (-pp.distance / fstrength_rep_scale)) ∧
      (pp.distance = 1 → pp.localPos ≠ pp.otherPos →
        ∀ f ∈ nucleusPairForces Real.exp Real.sqrt s pp,
          f.toVector3d.len Real.sqrt = 1 / 10 * Real.exp (-1 / (6 / 10))) := by
  have hlev : (0 : ℝ) < fstrength_overlap_level := by unfold fstrength_overlap_level; norm_num
  have hform : nucleusPairForces Real.exp Real.sqrt s pp =
        [ { toVector3d := (fstrength_overlap_level *
              Real.exp (-pp.distance / fstrength_rep_scale)) •
                (pp.localPos - pp.otherPos).changeToUnitOrZero Real.sqrt
            base := s.futureGeometry.centres pp.localHint.toNat
            hint := pp.localHint
            type := ftype_repulsive } ] := by
    simp only [nucleusPairForces, if_pos hd0, if_pos hd3]
  have hmag : pp.localPos ≠ pp.otherPos → ∀ f ∈ nucleusPairForces Real.exp Real.sqrt s pp,
      f.toVector3d.len Real.sqrt =
        fstrength_overlap_level * Real.exp (-pp.distance / fstrength_rep_scale) := by
    intro hne f hf
    rw [hform, List.mem_singleton] at hf
    subst hf
    simp only []
    rw [len_smul, len_changeToUnitOrZero _ (sub_ne_zero.mpr hne), abs_of_nonneg (by positivity),
      mul_one]
  refine ⟨hform, ?_, ?_, ?_⟩
  · intro f hf
    rw [collectExtForces_eq] at hpp ⊢
    simp only [List.mem_append, List.mem_flatMap]
    exact Or.inl (Or.inr ⟨pp, hpp, hf⟩)
  · intro hne
    exact ⟨changeToUnitOrZero_eq _ (sub_ne_zero.mpr hne), len_pos _ (sub_ne_zero.mpr hne),
      len_changeToUnitOrZero _ (sub_ne_zero.mpr hne), hmag hne⟩
  · intro h1 hne f hf
    rw [hmag hne f hf, h1]
    unfold fstrength_overlap_level fstrength_rep_scale
    rfl

/-- C6, a concrete run: the resting agent next to a nucleus whose pair has distance 1. -/
theorem C6_repulsion_force_witness :
    pairAt 1 ∈ ((restingAgent : NucleusAgent ℝ).collectExtForces Real.exp Real.sqrt
        [nucleusAt 1]).proximityPairs_toNuclei ∧
      (0 : ℝ) < (pairAt (1 : ℝ)).distance ∧ (pairAt (1 : ℝ)).distance < 3 ∧
      ∀ f ∈ nucleusPairForces Real.exp Real.sqrt (restingAgent : NucleusAgent ℝ) (pairAt 1),
        f.toVector3d.len Real.sqrt = 1 / 10 * Real.exp (-1 / (6 / 10)) := by
  have hpp : pairAt 1 ∈ ((restingAgent : NucleusAgent ℝ).collectExtForces Real.exp Real.sqrt
      [nucleusAt 1]).proximityPairs_toNuclei := by
    rw [collectExtForces_eq]
    have := nucleiPairsOf_nucleusAt [(1 : ℝ)]
    simp only [List.map_cons, List.map_nil] at this
    simp only [this]
    exact List.mem_cons_self _ _
  have hd0 : (0 : ℝ) < (pairAt (1 : ℝ)).distance := by simp [pairAt]
  have hd3 : (pairAt (1 : ℝ)).distance < 3 := by norm_num [pairAt]
  exact ⟨hpp, hd0, hd3,
    (C6_repulsion_force restingAgent [nucleusAt 1] (pairAt 1) hpp hd0 hd3).2.2.2 rfl
      origin_ne_unitX⟩

/-- C7: for every reference-shape (yolk) proximity entry of phase 3, whatever its signed distance,
every hinter force emitted for it is in the ledger and has magnitude at most
`2 * overlapLevel`. -/
theorem C7_hinter_clamp (s : NucleusAgent ℝ) (nearbyAgents : List (ShadowAgent ℝ))
    (pp : ProximityPair ℝ)
    (hpp : pp ∈ (s.collectExtForces Real.exp Real.sqrt nearbyAgents).proximityPairs_toYolk)
    (f : ForceVector3d ℝ) (hf : f ∈ yolkPairForces Real.sqrt s pp) :
    f ∈ (s.collectExtForces Real.exp Real.sqrt nearbyAgents).forces ∧
      f.type = ftype_hinter ∧
      f.toVector3d.len Real.sqrt ≤ 2 * fstrength_overlap_level := by
  have hlev : (0 : ℝ) < fstrength_overlap_level := by unfold fstrength_overlap_level; norm_num
  have hhs : (0 : ℝ) < fstrength_hinter_scale := by unfold fstrength_hinter_scale; norm_num
  refine ⟨?_, ?_, ?_⟩
  · rw [collectExtForces_eq] at hpp ⊢
    simp only [List.mem_append, List.mem_flatMap]
    exact Or.inr ⟨pp, hpp, hf⟩
  · rw [yolkPairForces_eq] at hf
    split at hf
    · obtain ⟨i, -, rfl⟩ := List.mem_map.mp hf
      rfl
    · exact absurd hf (List.not_mem_nil _)
  · rw [yolkPairForces_eq] at hf
    split at hf
    · obtain ⟨i, -, rfl⟩ := List.mem_map.mp hf
      have hm0 : 0 ≤ min (pp.distance * pp.distance * fstrength_hinter_scale) 1 :=
        le_min (mul_nonneg (mul_self_nonneg _) hhs.le) zero_le_one
      have hm1 : min (pp.distance * pp.distance * fstrength_hinter_scale) 1 ≤ 1 :=
        min_le_right _ _
      have hc0 : 0 ≤ 2 * fstrength_overlap_level *
          min (pp.distance * pp.distance * fstrength_hinter_scale) 1 := by positivity
      simp only [hinterForce, hinterVector]
      rw [len_smul, abs_of_nonneg hc0]
      have hu := len_changeToUnitOrZero_le (pp.otherPos - pp.localPos)
      have hu0 : 0 ≤ ((pp.otherPos - pp.localPos).changeToUnitOrZero Real.sqrt).len Real.sqrt :=
        Real.sqrt_nonneg _
      calc 2 * fstrength_overlap_level *
            min (pp.distance * pp.distance * fstrength_hinter_scale) 1 *
            ((pp.otherPos - pp.localPos).changeToUnitOrZero Real.sqrt).len Real.sqrt
          ≤ 2 * fstrength_overlap_level * 1 * 1 := by
            apply mul_le_mul _ hu hu0 (by positivity)
            exact mul_le_mul_of_nonneg_left hm1 (by positivity)
        _ = 2 * fstrength_overlap_level := by ring
    · exact absurd hf (List.not_mem_nil _)

/-- C7, a concrete run: the resting agent next to a shape hinter whose pair has distance 10, far
enough for the clamp to act. -/
theorem C7_hinter_clamp_witness :
    pairAt 10 ∈ ((restingAgent : NucleusAgent ℝ).collectExtForces Real.exp Real.sqrt
        [yolkAt 10]).proximityPairs_toYolk ∧
      hinterForce Real.sqrt restingAgent (pairAt 10) 0 ∈
        yolkPairForces Real.sqrt (restingAgent : NucleusAgent ℝ) (pairAt 10) ∧
      (hinterForce Real.sqrt (restingAgent : NucleusAgent ℝ) (pairAt 10) 0).toVector3d.len
        Real.sqrt ≤ 2 * fstrength_overlap_level := by
  have hpp : pairAt 10 ∈ ((restingAgent : NucleusAgent ℝ).collectExtForces Real.exp Real.sqrt
      [yolkAt 10]).proximityPairs_toYolk := by
    rw [collectExtForces_eq]
    have := yolkPairsOf_yolkAt [(10 : ℝ)]
    simp only [List.map_cons, List.map_nil] at this
    simp only [this]
    exact List.mem_cons_self _ _
  have hf : hinterForce Real.sqrt restingAgent (pairAt 10) 0 ∈
      yolkPairForces Real.sqrt (restingAgent : NucleusAgent ℝ) (pairAt 10) := by
    rw [yolkPairForces_eq]
    simp [pairAt, restingAgent]
  exact ⟨hpp, hf, (C7_hinter_clamp restingAgent [yolkAt 10] (pairAt 10) hpp _ hf).2.2⟩

/-- C8: a reference-shape proximity entry of phase 3 is turned into forces if and only if its
`localHint` is 0: it then yields, in index order, exactly one force for every sphere index
`0 .. noOfSpheres-1`, all with the same vector
`2 * overlapLevel * min(d*d * hinterScale, 1)` times the normalised `otherPos - localPos`, and all
in the ledger; otherwise it yields nothing.  For non-coincident points the normalised vector is
`otherPos - localPos` divided by its length and the magnitude of each force is
`2 * overlapLevel * min(d*d * hinterScale, 1)`, which for `d = 0.5` is `0.0125`. -/
theorem C8_hinter_force (s : NucleusAgent ℝ) (nearbyAgents : List (ShadowAgent ℝ))
    (pp : ProximityPair ℝ)
    (hpp : pp ∈ (s.collectExtForces Real.exp Real.sqrt nearbyAgents).proximityPairs_toYolk) :
    yolkPairForces Real.sqrt s pp =
        (if pp.localHint = 0 then
          (List.range s.futureGeometry.noOfSpheres).map (fun i =>
            { toVector3d := (2 * fstrength_overlap_level *
                min (pp.distance * pp.distance * fstrength_hinter_scale) 1) •
                  (pp.otherPos - pp.localPos).changeToUnitOrZero Real.sqrt
              base := s.futureGeometry.centres i
              hint := (i : Int)
              type := ftype_hinter })
        else []) ∧
      (∀ f ∈ yolkPairForces Real.sqrt s pp,
        f ∈ (s.collectExtForces Real.exp Real.sqrt nearbyAgents).forces) ∧
      (0 < s.futureGeometry.noOfSpheres →
        (yolkPairForces Real.sqrt s pp ≠ [] ↔ pp.localHint = 0)) ∧
      (pp.localPos ≠ pp.otherPos →
        (pp.otherPos - pp.localPos).changeToUnitOrZero Real.sqrt =
            (1 / (pp.otherPos - pp.localPos).len Real.sqrt) • (pp.otherPos - pp.localPos) ∧
          ∀ f ∈ yolkPairForces Real.sqrt s pp,
            f.toVector3d.len Real.sqrt =
              2 * fstrength_overlap_level *
                min (pp.distance * pp.distance * fstrength_hinter_scale) 1) ∧
      (pp.distance = 5 / 10 → pp.localPos ≠ pp.otherPos →
        ∀ f ∈ yolkPairForces Real.sqrt s pp, f.toVector3d.len Real.sqrt = 125 / 10000) := by
  have hlev : (0 : ℝ) < fstrength_overlap_level := by unfold fstrength_overlap_level; norm_num
  have hhs : (0 : ℝ) < fstrength_hinter_scale := by unfold fstrength_hinter_scale; norm_num
  have hm0 : 0 ≤ min (pp.distance * pp.distance * fstrength_hinter_scale) 1 :=
    le_min (mul_nonneg (mul_self_nonneg _) hhs.le) zero_le_one
  have hmag : pp.localPos ≠ pp.otherPos → ∀ f ∈ yolkPairForces Real.sqrt s pp,
      f.toVector3d.len Real.sqrt =
        2 * fstrength_overlap_level *
          min (pp.distance * pp.distance * fstrength_hinter_scale) 1 := by
    intro hne f hf
    rw [yolkPairForces_eq] at hf
    split at hf
    · obtain ⟨i, -, rfl⟩ := List.mem_map.mp hf
      simp only [hinterForce, hinterVector]
      rw [len_smul, len_changeToUnitOrZero _ (sub_ne_zero.mpr (Ne.symm hne)),
        abs_of_nonneg (by positivity), mul_one]
    · exact absurd hf (List.not_mem_nil _)
  refine ⟨?_, ?_, ?_, ?_, ?_⟩
  · rw [yolkPairForces_eq]; rfl
  · intro f hf
    rw [collectExtForces_eq] at hpp ⊢
    simp only [List.mem_append, List.mem_flatMap]
    exact Or.inr ⟨pp, hpp, hf⟩
  · intro hn
    rw [yolkPairForces_eq]
    constructor
    · intro h
      by_contra h0
      exact h (if_neg h0)
    · intro h0
      rw [if_pos h0]
      intro h
      have := congrArg List.length h
      simp at this
      omega
  · intro hne
    exact ⟨changeToUnitOrZero_eq _ (sub_ne_zero.mpr (Ne.symm hne)), hmag hne⟩
  · intro hd hne f hf
    rw [hmag hne f hf, hd]
    unfold fstrength_overlap_level fstrength_hinter_scale
    rw [min_eq_left (by norm_num)]
    norm_num

/-- C8, a concrete run: the resting agent next to a shape hinter whose pair has distance 0.5. -/
theorem C8_hinter_force_witness :
    pairAt (5 / 10) ∈ ((restingAgent : NucleusAgent ℝ).collectExtForces Real.exp Real.sqrt
        [yolkAt (5 / 10)]).proximityPairs_toYolk ∧
      yolkPairForces Real.sqrt (restingAgent : NucleusAgent ℝ) (pairAt (5 / 10)) ≠ [] ∧
      ∀ f ∈ yolkPairForces Real.sqrt (restingAgent : NucleusAgent ℝ) (pairAt (5 / 10)),
        f.toVector3d.len Real.sqrt = 125 / 10000 := by
  have hpp : pairAt (5 / 10) ∈ ((restingAgent : NucleusAgent ℝ).collectExtForces Real.exp
      Real.sqrt [yolkAt (5 / 10)]).proximityPairs_toYolk := by
    rw [collectExtForces_eq]
    have := yolkPairsOf_yolkAt [(5 / 10 : ℝ)]
    simp only [List.map_cons, List.map_nil] at this
    simp only [this]
    exact List.mem_cons_self _ _
  have h := C8_hinter_force restingAgent [yolkAt (5 / 10)] (pairAt (5 / 10)) hpp
  exact ⟨hpp, (h.2.2.1 (by simp [restingAgent])).mpr rfl, h.2.2.2.2 rfl origin_ne_unitX⟩

/-- C9: for every agent state, after `publishGeometry` every sphere `i < noOfSpheres` of the
exposed geometry has the centre of the internal sphere `i` and the radius of the internal sphere
`i` plus `cytoplasmWidth`. -/
theorem C9_publication (s : NucleusAgent K) (i : Nat) (hi : i < s.geometryAlias.noOfSpheres) :
    s.publishGeometry.geometryAlias.centres i = s.publishGeometry.futureGeometry.centres i ∧
      s.publishGeometry.geometryAlias.radii i =
        s.publishGeometry.futureGeometry.radii i + s.publishGeometry.cytoplasmWidth ∧
      s.publishGeometry.geometryAlias.centres i = s.futureGeometry.centres i ∧
      s.publishGeometry.geometryAlias.radii i = s.futureGeometry.radii i + s.cytoplasmWidth := by
  rw [publishGeometry_eq]
  simp [Spheres.updateOwnAABB, hi]

/-- C9, a concrete run: publishing `restingAgent` (internal radius 1, cytoplasm width 2) sets the
exposed radius of sphere 0 to 3 and its centre to the origin. -/
theorem C9_publication_witness :
    0 < (restingAgent : NucleusAgent ℚ).geometryAlias.noOfSpheres ∧
      (restingAgent : NucleusAgent ℚ).publishGeometry.geometryAlias.centres 0 = 0 ∧
      (restingAgent : NucleusAgent ℚ).publishGeometry.geometryAlias.radii 0 = 3 := by
  have h := C9_publication (restingAgent : NucleusAgent ℚ) 0 (by simp [restingAgent])
  refine ⟨by simp [restingAgent], ?_, ?_⟩
  · rw [h.2.2.1]; rfl
  · rw [h.2.2.2]; norm_num [restingAgent]

/-- C10: `publishGeometry` leaves the internal geometry, the joint buffer of accelerations and
velocities (hence every velocity), the weights and the force ledger unchanged; the only field of
the state that changes is the exposed geometry. -/
theorem C10_publication_frame (s : NucleusAgent K) :
    s.publishGeometry.futureGeometry = s.futureGeometry ∧
      s.publishGeometry.accels = s.accels ∧
      (∀ i, s.publishGeometry.velocities i = s.velocities i) ∧
      s.publishGeometry.weights = s.weights ∧
      s.publishGeometry.forces = s.forces ∧
      s.publishGeometry = { s with geometryAlias := s.publishGeometry.geometryAlias } := by
  rw [publishGeometry_eq]
  exact ⟨rfl, rfl, fun _ => rfl, rfl, rfl, rfl⟩

/-- C11: for a single-sphere agent with weight 1, zero velocity, an empty ledger, desired velocity
`v`, persistence time `tau` different from 0 and a hook that does nothing, after
`advanceAndBuildIntForces` followed by `adjustGeometryByIntForces` the velocity of the sphere is
`dt * v / tau`. -/
theorem C11_first_half_tick (s : NucleusAgent K) (t : K)
    (hn : s.futureGeometry.noOfSpheres = 1) (hw : s.weights 0 = 1)
    (hv : s.velocities 0 = 0) (hf : s.forces = [])
    (htau : s.velocity_PersistenceTime ≠ 0) :
    (s.advanceAndBuildIntForces noHook t).adjustGeometryByIntForces.velocities 0 =
      (s.incrTime / s.velocity_PersistenceTime) • s.velocity_CurrentlyDesired := by
  have _ := htau
  unfold adjustGeometryByIntForces
  rw [adjustGeometryByForces_velocities _ 0 (by rw [advanceAndBuildIntForces_noHook_eq]; show 0 < s.futureGeometry.noOfSpheres; omega)]
  rw [advanceAndBuildIntForces_noHook_eq]
  simp only [hf, List.nil_append]
  rw [netForce_map_range _ _ (fun j => rfl), netForce_map_range _ _ (fun j => rfl)]
  have hv' : s.accels 1 = 0 := by
    have := hv
    unfold velocities at this
    rw [hn] at this
    exact this
  ext <;>
  simp [velocities, hn, hw, hv', drivingForce, Vector3d.divScalar, div_eq_mul_inv, mul_assoc]

/-- C11, a concrete run: the resting agent with desired velocity `(1,0,0)` (persistence time 2,
tick duration 1) has velocity `(1/2,0,0)` after phases 1 and 2. -/
theorem C11_first_half_tick_witness :
    (drivenAgent : NucleusAgent ℚ).futureGeometry.noOfSpheres = 1 ∧
      (drivenAgent : NucleusAgent ℚ).weights 0 = 1 ∧
      (drivenAgent : NucleusAgent ℚ).velocities 0 = 0 ∧
      (drivenAgent : NucleusAgent ℚ).forces = [] ∧
      (drivenAgent : NucleusAgent ℚ).velocity_PersistenceTime ≠ 0 ∧
      ((drivenAgent : NucleusAgent ℚ).advanceAndBuildIntForces noHook
        0).adjustGeometryByIntForces.velocities 0 = ⟨1 / 2, 0, 0⟩ := by
  have htau : (drivenAgent : NucleusAgent ℚ).velocity_PersistenceTime ≠ 0 := by
    simp [drivenAgent, restingAgent]
  refine ⟨rfl, rfl, rfl, rfl, htau, ?_⟩
  rw [C11_first_half_tick (drivenAgent : NucleusAgent ℚ) 0 rfl rfl rfl rfl htau]
  ext <;> simp [drivenAgent, restingAgent]

/-- C12 (as amended): for a single-sphere agent with weight 1, zero initial velocity, constant
desired velocity `v`, persistence time `tau`, tick duration `dt` with `0 < dt < tau`, a hook that
does nothing and no nuclei or reference-shape proximity entries in any tick, the velocity of the
sphere after `n` complete ticks (phases 1 to 5) converges to `(1 - dt/tau) * v` as `n` grows
without bound. -/
theorem C12_velocity_limit (times : Nat → ℝ) (nearby : Nat → List (ShadowAgent ℝ))
    (s : NucleusAgent ℝ) (hn : s.futureGeometry.noOfSpheres = 1) (hw : s.weights 0 = 1)
    (hv : s.velocities 0 = 0)
    (hdt : 0 < s.incrTime) (hlt : s.incrTime < s.velocity_PersistenceTime)
    (hnear : ∀ k, nucleiPairsOf (nearby k) = [] ∧ yolkPairsOf (nearby k) = []) :
    TendstoVec (fun k => (runTicks noHook Real.exp Real.sqrt times nearby k s).velocities 0)
      ((1 - s.incrTime / s.velocity_PersistenceTime) • s.velocity_CurrentlyDesired) := by
  have _ := hv
  exact runTicks_velocity_tendsto times nearby s hn hw hdt hlt hnear

/-- C12, a concrete run: the resting agent desiring `(1,0,0)` with `dt = 1`, `tau = 2` and no
nearby agents; its velocity tends to `(1/2,0,0)`. -/
theorem C12_velocity_limit_witness :
    (drivenAgent : NucleusAgent ℝ).futureGeometry.noOfSpheres = 1 ∧
      (drivenAgent : NucleusAgent ℝ).weights 0 = 1 ∧
      (drivenAgent : NucleusAgent ℝ).velocities 0 = 0 ∧
      0 < (drivenAgent : NucleusAgent ℝ).incrTime ∧
      (drivenAgent : NucleusAgent ℝ).incrTime <
        (drivenAgent : NucleusAgent ℝ).velocity_PersistenceTime ∧
      TendstoVec (fun k => (runTicks noHook Real.exp Real.sqrt (fun _ => 0) (fun _ => [])
        k (drivenAgent : NucleusAgent ℝ)).velocities 0) ⟨1 / 2, 0, 0⟩ := by
  have hdt : 0 < (drivenAgent : NucleusAgent ℝ).incrTime := by
    simp [drivenAgent, restingAgent]
  have hlt : (drivenAgent : NucleusAgent ℝ).incrTime <
      (drivenAgent : NucleusAgent ℝ).velocity_PersistenceTime := by
    simp [drivenAgent, restingAgent]
  have h := C12_velocity_limit (fun _ => 0) (fun _ => []) (drivenAgent : NucleusAgent ℝ)
    rfl rfl rfl hdt hlt (fun _ => ⟨rfl, rfl⟩)
  have hl : (1 - (drivenAgent : NucleusAgent ℝ).incrTime /
      (drivenAgent : NucleusAgent ℝ).velocity_PersistenceTime) •
        (drivenAgent : NucleusAgent ℝ).velocity_CurrentlyDesired = ⟨1 / 2, 0, 0⟩ := by
    ext <;> norm_num [drivenAgent, restingAgent]
  rw [hl] at h
  exact ⟨rfl, rfl, rfl, hdt, hlt, h⟩

/-- C12, the claim as stated fails: for the resting agent desiring `v = (1,0,0)` with `dt = 1`,
`tau = 2`, unit weight, zero velocity, an empty ledger and no nearby agents, the velocity after
`n` complete ticks tends to `(1/2,0,0)`, so it does not converge to `v`. -/
theorem C12_counterexample :
    (drivenAgent : NucleusAgent ℝ).futureGeometry.noOfSpheres = 1 ∧
      (drivenAgent : NucleusAgent ℝ).weights 0 = 1 ∧
      (drivenAgent : NucleusAgent ℝ).velocities 0 = 0 ∧
      (drivenAgent : NucleusAgent ℝ).forces = [] ∧
      0 < (drivenAgent : NucleusAgent ℝ).incrTime ∧
      (drivenAgent : NucleusAgent ℝ).incrTime <
        (drivenAgent : NucleusAgent ℝ).velocity_PersistenceTime ∧
      (drivenAgent : NucleusAgent ℝ).velocity_CurrentlyDesired = ⟨1, 0, 0⟩ ∧
      ¬ TendstoVec (fun k => (runTicks noHook Real.exp Real.sqrt (fun _ => 0) (fun _ => [])
        k (drivenAgent : NucleusAgent ℝ)).velocities 0)
          (drivenAgent : NucleusAgent ℝ).velocity_CurrentlyDesired := by
  have hdt : 0 < (drivenAgent : NucleusAgent ℝ).incrTime := by
    simp [drivenAgent, restingAgent]
  have hlt : (drivenAgent : NucleusAgent ℝ).incrTime <
      (drivenAgent : NucleusAgent ℝ).velocity_PersistenceTime := by
    simp [drivenAgent, restingAgent]
  have h := runTicks_velocity_tendsto (fun _ => 0) (fun _ => [])
    (drivenAgent : NucleusAgent ℝ) rfl rfl hdt hlt (fun _ => ⟨rfl, rfl⟩)
  refine ⟨rfl, rfl, rfl, rfl, hdt, hlt, rfl, ?_⟩
  intro hc
  have hx := tendsto_nhds_unique h.1 hc.1
  norm_num [drivenAgent, restingAgent] at hx

/-- C13: the internal and the exposed geometry have the same sphere count in every reachable
agent state.  After construction from any sphere chain both counts are the count of the chain;
each of the five phases preserves both counts (phase 1 for every hook that does not change
them, as the count of a sphere chain is constant); hence the counts agree in every state reached
from the constructor by the phases. -/
theorem C13_sphere_counts (advanceAgent : K → NucleusAgent K → NucleusAgent K)
    (fexp fsqrt : K → K)
    (hhook : ∀ t s, (advanceAgent t s).futureGeometry.noOfSpheres =
          s.futureGeometry.noOfSpheres ∧
        (advanceAgent t s).geometryAlias.noOfSpheres = s.geometryAlias.noOfSpheres) :
    (∀ (shape : Spheres K) (ct it : K) (fa : Nat → Vector3d K) (fw : Nat → K),
        (construct shape ct it fa fw).futureGeometry.noOfSpheres = shape.noOfSpheres ∧
        (construct shape ct it fa fw).geometryAlias.noOfSpheres = shape.noOfSpheres) ∧
      (∀ (s : NucleusAgent K) (t : K) (nearbyAgents : List (ShadowAgent K)),
        ((s.advanceAndBuildIntForces advanceAgent t).futureGeometry.noOfSpheres =
            s.futureGeometry.noOfSpheres ∧
          (s.advanceAndBuildIntForces advanceAgent t).geometryAlias.noOfSpheres =
            s.geometryAlias.noOfSpheres) ∧
        (s.adjustGeometryByIntForces.futureGeometry.noOfSpheres =
            s.futureGeometry.noOfSpheres ∧
          s.adjustGeometryByIntForces.geometryAlias.noOfSpheres =
            s.geometryAlias.noOfSpheres) ∧
        ((s.collectExtForces fexp fsqrt nearbyAgents).futureGeometry.noOfSpheres =
            s.futureGeometry.noOfSpheres ∧
          (s.collectExtForces fexp fsqrt nearbyAgents).geometryAlias.noOfSpheres =
            s.geometryAlias.noOfSpheres) ∧
        (s.adjustGeometryByExtForces.futureGeometry.noOfSpheres =
            s.futureGeometry.noOfSpheres ∧
          s.adjustGeometryByExtForces.geometryAlias.noOfSpheres =
            s.geometryAlias.noOfSpheres) ∧
        (s.publishGeometry.futureGeometry.noOfSpheres = s.futureGeometry.noOfSpheres ∧
          s.publishGeometry.geometryAlias.noOfSpheres = s.geometryAlias.noOfSpheres)) ∧
      (∀ s, Reachable advanceAgent fexp fsqrt s →
        s.futureGeometry.noOfSpheres = s.geometryAlias.noOfSpheres) := by
  have h1 : ∀ (s : NucleusAgent K) (t : K),
      (s.advanceAndBuildIntForces advanceAgent t).futureGeometry.noOfSpheres =
          s.futureGeometry.noOfSpheres ∧
        (s.advanceAndBuildIntForces advanceAgent t).geometryAlias.noOfSpheres =
          s.geometryAlias.noOfSpheres := fun s t =>
    ⟨(advanceAndBuildIntForces_counts advanceAgent t s).1.trans (hhook t s).1,
      (advanceAndBuildIntForces_counts advanceAgent t s).2.trans (hhook t s).2⟩
  refine ⟨fun _ _ _ _ _ => ⟨rfl, rfl⟩, fun s t nearbyAgents =>
    ⟨h1 s t, adjustGeometryByForces_counts s, collectExtForces_counts fexp fsqrt nearbyAgents s,
      adjustGeometryByForces_counts s, publishGeometry_counts s⟩, ?_⟩
  intro s hs
  induction hs with
  | init shape ct it fa fw => rfl
  | phase1 s t _ ih => rw [(h1 s t).1, (h1 s t).2, ih]
  | phase2 s _ ih =>
    unfold adjustGeometryByIntForces
    rw [(adjustGeometryByForces_counts s).1, (adjustGeometryByForces_counts s).2, ih]
  | phase3 s nearbyAgents _ ih =>
    rw [(collectExtForces_counts fexp fsqrt nearbyAgents s).1,
      (collectExtForces_counts fexp fsqrt nearbyAgents s).2, ih]
  | phase4 s _ ih =>
    unfold adjustGeometryByExtForces
    rw [(adjustGeometryByForces_counts s).1, (adjustGeometryByForces_counts s).2, ih]
  | phase5 s _ ih => rw [(publishGeometry_counts s).1, (publishGeometry_counts s).2, ih]

/-- C13, a concrete run: with the hook that does nothing, the agent constructed from the
geometry of the resting agent and taken through phases 1 and 5 has one sphere in both
geometries. -/
theorem C13_sphere_counts_witness :
    (∀ (t : ℚ) (s : NucleusAgent ℚ),
        (noHook t s).futureGeometry.noOfSpheres = s.futureGeometry.noOfSpheres ∧
        (noHook t s).geometryAlias.noOfSpheres = s.geometryAlias.noOfSpheres) ∧
      (((construct (restingAgent : NucleusAgent ℚ).futureGeometry 0 1 (fun _ => 0)
          (fun _ => 0)).advanceAndBuildIntForces noHook 1).publishGeometry).futureGeometry.noOfSpheres
        = (((construct (restingAgent : NucleusAgent ℚ).futureGeometry 0 1 (fun _ => 0)
          (fun _ => 0)).advanceAndBuildIntForces noHook 1).publishGeometry).geometryAlias.noOfSpheres
      := by
  have hh : ∀ (t : ℚ) (s : NucleusAgent ℚ),
      (noHook t s).futureGeometry.noOfSpheres = s.futureGeometry.noOfSpheres ∧
      (noHook t s).geometryAlias.noOfSpheres = s.geometryAlias.noOfSpheres :=
    fun _ _ => ⟨rfl, rfl⟩
  exact ⟨hh, (C13_sphere_counts noHook (fun x => x) (fun x => x) hh).2.2 _
    (Reachable.phase5 _ (Reachable.phase1 _ 1 (Reachable.init _ 0 1 _ _)))⟩

/-- C14: for every proximity entry whose local and other surface points coincide the direction
vector normalises to the zero vector, so the repulsion force (`0 < d < 3.0`), the body force
(`d <= 0`) and every hinter force emitted for that entry are exactly the zero vector. -/
theorem C14_zero_direction (fexp fsqrt : K → K) (s : NucleusAgent K) (pp : ProximityPair K)
    (h : pp.localPos = pp.otherPos) :
    (pp.localPos - pp.otherPos).changeToUnitOrZero fsqrt = 0 ∧
      (pp.otherPos - pp.localPos).changeToUnitOrZero fsqrt = 0 ∧
      (0 < pp.distance → pp.distance < 3 →
        nucleusPairForces fexp fsqrt s pp =
          [ { toVector3d := 0
              base := s.futureGeometry.centres pp.localHint.toNat
              hint := pp.localHint
              type := ftype_repulsive } ]) ∧
      (pp.distance ≤ 0 →
        ∃ slide : ForceVector3d K, slide.type = ftype_slide ∧
          nucleusPairForces fexp fsqrt s pp =
            [ { toVector3d := 0
                base := s.futureGeometry.centres pp.localHint.toNat
                hint := pp.localHint
                type := ftype_body }, slide ]) ∧
      (∀ f ∈ yolkPairForces fsqrt s pp, f.toVector3d = 0) := by
  have h1 : (pp.localPos - pp.otherPos).changeToUnitOrZero fsqrt = 0 := by
    rw [h, sub_self, changeToUnitOrZero_zero]
  have h2 : (pp.otherPos - pp.localPos).changeToUnitOrZero fsqrt = 0 := by
    rw [h, sub_self, changeToUnitOrZero_zero]
  have hz : ∀ c : K, c • (0 : Vector3d K) = 0 := fun c => by ext <;> simp
  refine ⟨h1, h2, ?_, ?_, ?_⟩
  · intro hd0 hd3
    simp only [nucleusPairForces, if_pos hd0, if_pos hd3, h1, hz]
  · intro hd
    simp only [nucleusPairForces, if_neg (not_lt.mpr hd), h2, hz]
    exact ⟨_, rfl, rfl⟩
  · intro f hf
    rw [yolkPairForces_eq] at hf
    split at hf
    · obtain ⟨i, -, rfl⟩ := List.mem_map.mp hf
      simp only [hinterForce, hinterVector, h2, hz]
    · exact absurd hf (List.not_mem_nil _)

/-- C14, a concrete run: a pair in contact whose two surface points are both the origin yields a
zero body force. -/
theorem C14_zero_direction_witness :
    ({ (pairAt (-1) : ProximityPair ℚ) with otherPos := 0 }).localPos =
        ({ (pairAt (-1) : ProximityPair ℚ) with otherPos := 0 }).otherPos ∧
      ∀ f ∈ yolkPairForces (fun x => x) (restingAgent : NucleusAgent ℚ)
          { (pairAt (-1) : ProximityPair ℚ) with otherPos := 0 },
        f.toVector3d = 0 :=
  ⟨rfl, (C14_zero_direction (fun x => x) (fun x => x) (restingAgent : NucleusAgent ℚ)
    { (pairAt (-1) : ProximityPair ℚ) with otherPos := 0 } rfl).2.2.2.2⟩

/-- C15: for every nuclei proximity entry of phase 3 in contact (`d <= 0`) with non-coincident
surface points, with `n` the normalised `otherPos - localPos` (a unit vector) and `g` the velocity
of sphere `otherHint` of the opposing agent minus the velocity of the local sphere `localHint`,
the second force emitted is the sliding force: it is in the ledger, acts on `localHint`, equals
`(slideScale * weight[localHint] / persistenceTime) * (g - (n . g) n)` and its dot product with
`n` is zero.  No sliding force is emitted for an entry with `d > 0`. -/
theorem C15_sliding_force (s : NucleusAgent ℝ) (nearbyAgents : List (ShadowAgent ℝ))
    (pp : ProximityPair ℝ)
    (hpp : pp ∈ (s.collectExtForces Real.exp Real.sqrt nearbyAgents).proximityPairs_toNuclei)
    (hd : pp.distance ≤ 0) (hne : pp.localPos ≠ pp.otherPos) :
    (∃ sa ∈ nearbyAgents, pp.callerHint = sa.getVelocityOfSphere) ∧
      (∃ body slide : ForceVector3d ℝ,
        nucleusPairForces Real.exp Real.sqrt s pp = [body, slide] ∧
        slide ∈ (s.collectExtForces Real.exp Real.sqrt nearbyAgents).forces ∧
        slide.type = ftype_slide ∧ slide.hint = pp.localHint ∧
        slide.toVector3d =
          (fstrength_slide_scale * s.weights pp.localHint.toNat / s.velocity_PersistenceTime) •
            ((pp.callerHint pp.otherHint - s.velocities pp.localHint.toNat) -
              Vector3d.dotProduct ((pp.otherPos - pp.localPos).changeToUnitOrZero Real.sqrt)
                  (pp.callerHint pp.otherHint - s.velocities pp.localHint.toNat) •
                (pp.otherPos - pp.localPos).changeToUnitOrZero Real.sqrt) ∧
        Vector3d.dotProduct slide.toVector3d
          ((pp.otherPos - pp.localPos).changeToUnitOrZero Real.sqrt) = 0 ∧
        ((pp.otherPos - pp.localPos).changeToUnitOrZero Real.sqrt).len Real.sqrt = 1) ∧
      (∀ q : ProximityPair ℝ, 0 < q.distance →
        ∀ f ∈ nucleusPairForces Real.exp Real.sqrt s q, f.type ≠ ftype_slide) := by
  have hnd : ¬ (0 < pp.distance) := not_lt.mpr hd
  have hn0 : pp.otherPos - pp.localPos ≠ 0 := sub_ne_zero.mpr (Ne.symm hne)
  have hn2 := len2_changeToUnitOrZero _ hn0
  rw [collectExtForces_eq] at hpp ⊢
  refine ⟨mem_nucleiPairsOf nearbyAgents pp hpp, ?_, ?_⟩
  · simp only [nucleusPairForces, if_neg hnd]
    refine ⟨_, _, rfl, ?_, rfl, rfl, rfl, ?_, len_changeToUnitOrZero _ hn0⟩
    · simp only [List.mem_append, List.mem_flatMap]
      refine Or.inl (Or.inr ⟨pp, hpp, ?_⟩)
      simp only [nucleusPairForces, if_neg hnd]
      exact List.mem_cons_of_mem _ (List.mem_cons_self _ _)
    · simp only [Vector3d.len2] at hn2
      simp only [Vector3d.dotProduct, Vector3d.smul_x, Vector3d.smul_y, Vector3d.smul_z,
        Vector3d.sub_x, Vector3d.sub_y, Vector3d.sub_z]
      generalize (pp.otherPos - pp.localPos).changeToUnitOrZero Real.sqrt = n at hn2 ⊢
      generalize pp.callerHint pp.otherHint = a
      generalize s.velocities pp.localHint.toNat = b
      generalize fstrength_slide_scale * s.weights pp.localHint.toNat /
        s.velocity_PersistenceTime = c
      linear_combination
        (-c * (n.x * (a.x - b.x) + n.y * (a.y - b.y) + n.z * (a.z - b.z))) * hn2
  · intro q hq f hf
    simp only [nucleusPairForces, if_pos hq] at hf
    split at hf
    · rw [List.mem_singleton] at hf
      subst hf
      exact (by decide : ftype_repulsive ≠ ftype_slide)
    · exact absurd hf (List.not_mem_nil _)

/-- C15, a concrete run: the resting agent in contact (signed distance `-1`) with a nucleus. -/
theorem C15_sliding_force_witness :
    pairAt (-1) ∈ ((restingAgent : NucleusAgent ℝ).collectExtForces Real.exp Real.sqrt
        [nucleusAt (-1)]).proximityPairs_toNuclei ∧
      (pairAt (-1 : ℝ)).distance ≤ 0 ∧
      (pairAt (-1 : ℝ)).localPos ≠ (pairAt (-1 : ℝ)).otherPos ∧
      ∃ body slide : ForceVector3d ℝ,
        nucleusPairForces Real.exp Real.sqrt restingAgent (pairAt (-1)) = [body, slide] ∧
        slide.type = ftype_slide ∧
        Vector3d.dotProduct slide.toVector3d
          (((pairAt (-1 : ℝ)).otherPos - (pairAt (-1 : ℝ)).localPos).changeToUnitOrZero
            Real.sqrt) = 0 := by
  have hpp : pairAt (-1) ∈ ((restingAgent : NucleusAgent ℝ).collectExtForces Real.exp Real.sqrt
      [nucleusAt (-1)]).proximityPairs_toNuclei := by
    rw [collectExtForces_eq]
    have := nucleiPairsOf_nucleusAt [(-1 : ℝ)]
    simp only [List.map_cons, List.map_nil] at this
    simp only [this]
    exact List.mem_cons_self _ _
  have hd : (pairAt (-1 : ℝ)).distance ≤ 0 := by simp [pairAt]
  have hne : (pairAt (-1 : ℝ)).localPos ≠ (pairAt (-1 : ℝ)).otherPos := origin_ne_unitX
  obtain ⟨-, ⟨body, slide, h1, -, h2, -, -, h3, -⟩, -⟩ :=
    C15_sliding_force restingAgent [nucleusAt (-1)] (pairAt (-1)) hpp hd hne
  exact ⟨hpp, hd, hne, body, slide, h1, h2, h3⟩

/-- C16: phase 1 with a hook that does nothing, started from any ledger `L`: the resulting ledger
is `L` followed by exactly one driving entry per sphere `i` in index order, with vector
`(weight[i] / persistenceTime) * desiredVelocity`, origin the internal centre of `i`, sphere index
`i` and the label of the driving force; the local clock grows by the tick duration; both
geometries, the buffer of accelerations and velocities, and the weights are unchanged. -/
theorem C16_phase1 (t : K) (s : NucleusAgent K) :
    (s.advanceAndBuildIntForces noHook t).forces =
        s.forces ++ (List.range s.futureGeometry.noOfSpheres).map (fun i =>
          { toVector3d := (s.weights i / s.velocity_PersistenceTime) • s.velocity_CurrentlyDesired
            base := s.futureGeometry.centres i
            hint := (i : Int)
            type := ftype_drive }) ∧
      (s.advanceAndBuildIntForces noHook t).currTime = s.currTime + s.incrTime ∧
      (s.advanceAndBuildIntForces noHook t).futureGeometry = s.futureGeometry ∧
      (s.advanceAndBuildIntForces noHook t).geometryAlias = s.geometryAlias ∧
      (s.advanceAndBuildIntForces noHook t).accels = s.accels ∧
      (∀ i, (s.advanceAndBuildIntForces noHook t).velocities i = s.velocities i) ∧
      (s.advanceAndBuildIntForces noHook t).weights = s.weights := by
  rw [advanceAndBuildIntForces_noHook_eq]
  exact ⟨rfl, rfl, rfl, rfl, rfl, fun _ => rfl, rfl⟩

/-- C17: phase 3 appends to the ledger, before any proximity force, exactly one friction entry
per sphere `i` in index order, with vector `-(weight[i] / persistenceTime) * velocity[i]` (the
velocity at the start of the phase), origin the internal centre of `i` and sphere index `i`; the
forces of the nuclei pairs and then of the yolk pairs follow; without nearby agents the friction
entries are the only ones added; velocities and both geometries are unchanged. -/
theorem C17_phase3_friction (fexp fsqrt : K → K) (nearbyAgents : List (ShadowAgent K))
    (s : NucleusAgent K) :
    (s.collectExtForces fexp fsqrt nearbyAgents).forces =
        s.forces ++
          (List.range s.futureGeometry.noOfSpheres).map (fun i =>
            { toVector3d := (-(s.weights i / s.velocity_PersistenceTime)) • s.velocities i
              base := s.futureGeometry.centres i
              hint := (i : Int)
              type := ftype_friction }) ++
          ((s.collectExtForces fexp fsqrt nearbyAgents).proximityPairs_toNuclei.flatMap
              (nucleusPairForces fexp fsqrt s) ++
            (s.collectExtForces fexp fsqrt nearbyAgents).proximityPairs_toYolk.flatMap
              (yolkPairForces fsqrt s)) ∧
      (s.collectExtForces fexp fsqrt []).forces =
        s.forces ++
          (List.range s.futureGeometry.noOfSpheres).map (fun i =>
            { toVector3d := (-(s.weights i / s.velocity_PersistenceTime)) • s.velocities i
              base := s.futureGeometry.centres i
              hint := (i : Int)
              type := ftype_friction }) ∧
      (s.collectExtForces fexp fsqrt nearbyAgents).accels = s.accels ∧
      (∀ i, (s.collectExtForces fexp fsqrt nearbyAgents).velocities i = s.velocities i) ∧
      (s.collectExtForces fexp fsqrt nearbyAgents).futureGeometry = s.futureGeometry ∧
      (s.collectExtForces fexp fsqrt nearbyAgents).geometryAlias = s.geometryAlias := by
  have hfr : s.frictionForce = fun i =>
      ({ toVector3d := (-(s.weights i / s.velocity_PersistenceTime)) • s.velocities i
         base := s.futureGeometry.centres i
         hint := (i : Int)
         type := ftype_friction } : ForceVector3d K) := by
    funext i
    simp only [frictionForce, neg_div]
  rw [collectExtForces_eq, collectExtForces_eq, hfr]
  refine ⟨?_, ?_, rfl, fun _ => rfl, rfl, rfl⟩
  · simp only [List.append_assoc]
  · simp [nucleiPairsOf, yolkPairsOf]

/-- C18: the ledger after phase 3 does not depend on the guiding-track proximity entries: two
sets of nearby agents that give the same nuclei entries and the same reference-shape entries give
the same ledger, whatever track entries each of them gives. -/
theorem C18_tracks_no_force (fexp fsqrt : K → K) (near1 near2 : List (ShadowAgent K))
    (s : NucleusAgent K)
    (hN : (s.collectExtForces fexp fsqrt near1).proximityPairs_toNuclei =
      (s.collectExtForces fexp fsqrt near2).proximityPairs_toNuclei)
    (hY : (s.collectExtForces fexp fsqrt near1).proximityPairs_toYolk =
      (s.collectExtForces fexp fsqrt near2).proximityPairs_toYolk) :
    (s.collectExtForces fexp fsqrt near1).forces =
      (s.collectExtForces fexp fsqrt near2).forces := by
  rw [collectExtForces_eq, collectExtForces_eq] at hN hY ⊢
  simp only at hN hY ⊢
  rw [hN, hY]

/-- C18, a concrete run: the resting agent with no nearby agent and with one nearby guiding
trajectory: the track lists differ, the ledgers are equal. -/
theorem C18_tracks_no_force_witness :
    ((restingAgent : NucleusAgent ℚ).collectExtForces (fun x => x) (fun x => x)
        []).proximityPairs_tracks = [] ∧
      ((restingAgent : NucleusAgent ℚ).collectExtForces (fun x => x) (fun x => x)
        [trackAt 1]).proximityPairs_tracks ≠ [] ∧
      ((restingAgent : NucleusAgent ℚ).collectExtForces (fun x => x) (fun x => x) []).forces =
        ((restingAgent : NucleusAgent ℚ).collectExtForces (fun x => x) (fun x => x)
          [trackAt 1]).forces := by
  have hN : ((restingAgent : NucleusAgent ℚ).collectExtForces (fun x => x) (fun x => x)
        []).proximityPairs_toNuclei =
      ((restingAgent : NucleusAgent ℚ).collectExtForces (fun x => x) (fun x => x)
        [trackAt 1]).proximityPairs_toNuclei := by
    rw [collectExtForces_eq, collectExtForces_eq]
    rfl
  have hY : ((restingAgent : NucleusAgent ℚ).collectExtForces (fun x => x) (fun x => x)
        []).proximityPairs_toYolk =
      ((restingAgent : NucleusAgent ℚ).collectExtForces (fun x => x) (fun x => x)
        [trackAt 1]).proximityPairs_toYolk := by
    rw [collectExtForces_eq, collectExtForces_eq]
    rfl
  refine ⟨?_, ?_, C18_tracks_no_force (fun x => x) (fun x => x) [] [trackAt 1]
    (restingAgent : NucleusAgent ℚ) hN hY⟩
  · rw [collectExtForces_eq]; rfl
  · rw [collectExtForces_eq]
    exact List.cons_ne_nil _ _

/-- C19: the normal force scale `S` between nuclei is a non-increasing function of the signed
distance: `S(d2) <= S(d1)` whenever `d1 <= d2`; `S(d) < overlapLevel` for every `d > 0` and
`S(d) >= overlapLevel` for every `d <= 0`.  `S` is the scale the code applies: for `0 < d < 3.0`
the one force emitted is `S(d)` times the normalised `localPos - otherPos`, for `d >= 3.0` nothing
is emitted and `S(d) = 0`, for `d <= 0` the body force is `S(d)` times the normalised
`otherPos - localPos`; for non-coincident points `S(d)` is the magnitude of that force. -/
theorem C19_normal_scale_monotone (d1 d2 : ℝ) (h : d1 ≤ d2) :
    specNormalScale Real.exp d2 ≤ specNormalScale Real.exp d1 ∧
      (∀ d : ℝ, 0 < d → specNormalScale Real.exp d < fstrength_overlap_level) ∧
      (∀ d : ℝ, d ≤ 0 → fstrength_overlap_level ≤ specNormalScale Real.exp d) ∧
      (∀ (s : NucleusAgent ℝ) (pp : ProximityPair ℝ),
        (0 < pp.distance → pp.distance < 3 →
          nucleusPairForces Real.exp Real.sqrt s pp =
            [ { toVector3d := specNormalScale Real.exp pp.distance •
                  (pp.localPos - pp.otherPos).changeToUnitOrZero Real.sqrt
                base := s.futureGeometry.centres pp.localHint.toNat
                hint := pp.localHint
                type := ftype_repulsive } ] ∧
          (pp.localPos ≠ pp.otherPos →
            (specNormalScale Real.exp pp.distance •
              (pp.localPos - pp.otherPos).changeToUnitOrZero Real.sqrt).len Real.sqrt =
              specNormalScale Real.exp pp.distance)) ∧
        (3 ≤ pp.distance →
          nucleusPairForces Real.exp Real.sqrt s pp = [] ∧
          specNormalScale Real.exp pp.distance = 0) ∧
        (pp.distance ≤ 0 →
          (∃ slide : ForceVector3d ℝ, slide.type = ftype_slide ∧
            nucleusPairForces Real.exp Real.sqrt s pp =
              [ { toVector3d := specNormalScale Real.exp pp.distance •
                    (pp.otherPos - pp.localPos).changeToUnitOrZero Real.sqrt
                  base := s.futureGeometry.centres pp.localHint.toNat
                  hint := pp.localHint
                  type := ftype_body }, slide ]) ∧
          (pp.localPos ≠ pp.otherPos →
            (specNormalScale Real.exp pp.distance •
              (pp.otherPos - pp.localPos).changeToUnitOrZero Real.sqrt).len Real.sqrt =
              specNormalScale Real.exp pp.distance))) := by
  refine ⟨specNormalScale_antitone d1 d2 h, fun d hd => (specNormalScale_of_pos d hd).2,
    specNormalScale_of_nonpos, ?_⟩
  intro s pp
  have hlev : (0 : ℝ) < fstrength_overlap_level := by unfold fstrength_overlap_level; norm_num
  refine ⟨?_, ?_, ?_⟩
  · intro h0 h3
    have e : specNormalScale Real.exp pp.distance =
        fstrength_overlap_level * Real.exp (-pp.distance / fstrength_rep_scale) := by
      unfold specNormalScale
      rw [if_neg (not_le.mpr h0), if_pos h3]
    refine ⟨?_, ?_⟩
    · simp only [nucleusPairForces, if_pos h0, if_pos h3, e]
    · intro hne
      rw [len_smul, len_changeToUnitOrZero _ (sub_ne_zero.mpr hne),
        abs_of_nonneg (specNormalScale_of_pos _ h0).1, mul_one]
  · intro h3
    have h0 : 0 < pp.distance := by linarith
    refine ⟨?_, ?_⟩
    · simp only [nucleusPairForces, if_pos h0, if_neg (not_lt.mpr h3)]
    · unfold specNormalScale
      rw [if_neg (not_le.mpr h0), if_neg (not_lt.mpr h3)]
  · intro hd
    have e : specNormalScale Real.exp pp.distance = bodyScale pp.distance := by
      rw [bodyScale_eq_max]
      unfold specNormalScale
      rw [if_pos hd]
    refine ⟨?_, ?_⟩
    · simp only [nucleusPairForces, if_neg (not_lt.mpr hd), e]
      exact ⟨_, rfl, rfl⟩
    · intro hne
      rw [len_smul, len_changeToUnitOrZero _ (sub_ne_zero.mpr (Ne.symm hne)),
        abs_of_nonneg (le_trans hlev.le (specNormalScale_of_nonpos _ hd)), mul_one]

/-- C19, concrete values: `S(1) <= S(-1)`, with `S(-1) = 0.2`. -/
theorem C19_normal_scale_monotone_witness :
    (-1 : ℝ) ≤ 1 ∧ specNormalScale Real.exp 1 ≤ specNormalScale Real.exp (-1) ∧
      specNormalScale Real.exp (-1) = 2 / 10 := by
  refine ⟨by norm_num, (C19_normal_scale_monotone (-1) 1 (by norm_num)).1, ?_⟩
  unfold specNormalScale fstrength_overlap_level fstrength_overlap_scale fstrength_overlap_depth
  rw [if_pos (by norm_num), max_eq_left (by norm_num)]
  norm_num

/-- C20: rigid motion without nucleus contact.  At the start of a tick, if all spheres of the
agent have the same non-zero weight and the same velocity, the hook does nothing and phase 3 sees
no nuclei proximity entries (any reference-shape and track entries are allowed), then after
phases 1 to 4 of the tick all spheres again share one velocity and every internal centre has been
translated by the same vector, so all centre-to-centre offsets of the chain are preserved. -/
theorem C20_rigid_motion (fexp fsqrt : K → K) (t : K) (nearbyAgents : List (ShadowAgent K))
    (s : NucleusAgent K) (w : K) (u : Vector3d K)
    (hstart : TickStart fexp fsqrt s) (hw0 : w ≠ 0)
    (hw : ∀ i, i < s.futureGeometry.noOfSpheres → s.weights i = w)
    (hu : ∀ i, i < s.futureGeometry.noOfSpheres → s.velocities i = u)
    (hN : (((s.advanceAndBuildIntForces noHook t).adjustGeometryByIntForces).collectExtForces
      fexp fsqrt nearbyAgents).proximityPairs_toNuclei = []) :
    (∃ u2 T : Vector3d K, ∀ i, i < s.futureGeometry.noOfSpheres →
      (phases1to4 noHook fexp fsqrt t nearbyAgents s).velocities i = u2 ∧
      (phases1to4 noHook fexp fsqrt t nearbyAgents s).futureGeometry.centres i =
        s.futureGeometry.centres i + T) ∧
    (∀ i j, i < s.futureGeometry.noOfSpheres → j < s.futureGeometry.noOfSpheres →
      (phases1to4 noHook fexp fsqrt t nearbyAgents s).futureGeometry.centres i -
          (phases1to4 noHook fexp fsqrt t nearbyAgents s).futureGeometry.centres j =
        s.futureGeometry.centres i - s.futureGeometry.centres j) := by
  rw [collectExtForces_eq] at hN
  exact phases1to4_rigid fexp fsqrt t nearbyAgents s w u hw0 hw hu
    (tickStart_forces fexp fsqrt s hstart) hN

/-- C20, a concrete run: the freshly constructed two-sphere agent `pairAgent` next to a shape
hinter; after phases 1 to 4 the offset between the two centres is the one before. -/
theorem C20_rigid_motion_witness :
    TickStart (fun x => x) (fun x => x) (pairAgent : NucleusAgent ℚ) ∧
      (∀ i, i < (pairAgent : NucleusAgent ℚ).futureGeometry.noOfSpheres →
        (pairAgent : NucleusAgent ℚ).weights i = 1) ∧
      (∀ i, i < (pairAgent : NucleusAgent ℚ).futureGeometry.noOfSpheres →
        (pairAgent : NucleusAgent ℚ).velocities i = 0) ∧
      ((((pairAgent : NucleusAgent ℚ).advanceAndBuildIntForces noHook
        0).adjustGeometryByIntForces).collectExtForces (fun x => x) (fun x => x)
          [yolkAt 1]).proximityPairs_toNuclei = [] ∧
      (phases1to4 noHook (fun x => x) (fun x => x) 0 [yolkAt 1]
          (pairAgent : NucleusAgent ℚ)).futureGeometry.centres 1 -
        (phases1to4 noHook (fun x => x) (fun x => x) 0 [yolkAt 1]
          (pairAgent : NucleusAgent ℚ)).futureGeometry.centres 0 =
        (pairAgent : NucleusAgent ℚ).futureGeometry.centres 1 -
          (pairAgent : NucleusAgent ℚ).futureGeometry.centres 0 := by
  have hs : TickStart (fun x => x) (fun x => x) (pairAgent : NucleusAgent ℚ) :=
    TickStart.init _ _ _ _ _
  have hn : (pairAgent : NucleusAgent ℚ).futureGeometry.noOfSpheres = 2 := rfl
  have hw : ∀ i, i < (pairAgent : NucleusAgent ℚ).futureGeometry.noOfSpheres →
      (pairAgent : NucleusAgent ℚ).weights i = 1 := by
    intro i hi
    rw [hn] at hi
    interval_cases i <;> simp [pairAgent, construct, pairShape, forLoop, Function.update]
  have hu : ∀ i, i < (pairAgent : NucleusAgent ℚ).futureGeometry.noOfSpheres →
      (pairAgent : NucleusAgent ℚ).velocities i = 0 := fun _ _ => rfl
  have hN : ((((pairAgent : NucleusAgent ℚ).advanceAndBuildIntForces noHook
      0).adjustGeometryByIntForces).collectExtForces (fun x => x) (fun x => x)
        [yolkAt 1]).proximityPairs_toNuclei = [] := by
    rw [collectExtForces_eq]
    rfl
  exact ⟨hs, hw, hu, hN,
    (C20_rigid_motion (fun x => x) (fun x => x) 0 [yolkAt 1] (pairAgent : NucleusAgent ℚ) 1 0
      hs one_ne_zero hw hu hN).2 1 0 (by rw [hn]; decide) (by rw [hn]; decide)⟩

/-- C21: ledger sphere indices are in range.  The entries that `advanceAndBuildIntForces` appends
to the ledger (after any hook) carry a sphere index in `[0, noOfSpheres)`.  Starting from an
empty ledger, with a hook that does nothing every entry of the ledger after
`advanceAndBuildIntForces` is in that range, and if every nuclei proximity entry has
`0 <= localHint < noOfSpheres` so is every entry of the ledger after `collectExtForces`.  For each
such entry the accumulation `accels[f.hint] += f` of `adjustGeometryByForces` takes its in-buffer
branch and writes one of the cells `accels[0 .. noOfSpheres-1]`. -/
theorem C21_ledger_hints_in_range (fexp fsqrt : K → K) (t : K)
    (nearbyAgents : List (ShadowAgent K)) (s : NucleusAgent K) (hf : s.forces = [])
    (hN : ∀ pp ∈ (s.collectExtForces fexp fsqrt nearbyAgents).proximityPairs_toNuclei,
      0 ≤ pp.localHint ∧ pp.localHint < (s.futureGeometry.noOfSpheres : Int)) :
    (∀ advanceAgent : K → NucleusAgent K → NucleusAgent K,
      ∃ emitted : List (ForceVector3d K),
        (s.advanceAndBuildIntForces advanceAgent t).forces =
          (advanceAgent t s).forces ++ emitted ∧
        ∀ f ∈ emitted, 0 ≤ f.hint ∧
          f.hint < ((s.advanceAndBuildIntForces advanceAgent t).futureGeometry.noOfSpheres : Int)) ∧
      LedgerInRange (s.advanceAndBuildIntForces noHook t) ∧
      LedgerInRange (s.collectExtForces fexp fsqrt nearbyAgents) ∧
      (∀ f, f ∈ (s.advanceAndBuildIntForces noHook t).forces ∨
          f ∈ (s.collectExtForces fexp fsqrt nearbyAgents).forces →
        ∀ r : NucleusAgent K, r.futureGeometry.noOfSpheres = s.futureGeometry.noOfSpheres →
          r.accumulate f =
            { r with accels :=
                Function.update r.accels f.hint.toNat (r.accels f.hint.toNat + f.toVector3d) } ∧
          f.hint.toNat < r.futureGeometry.noOfSpheres) := by
  have h1 : LedgerInRange (s.advanceAndBuildIntForces noHook t) := by
    intro f hmem
    rw [advanceAndBuildIntForces_noHook_eq] at hmem ⊢
    simp only [hf, List.nil_append] at hmem
    exact hint_of_mem_map_range _ _ (fun _ => rfl) f hmem
  have h3 : LedgerInRange (s.collectExtForces fexp fsqrt nearbyAgents) := by
    intro f hmem
    rw [collectExtForces_eq] at hmem hN ⊢
    simp only [hf, List.nil_append] at hmem
    exact collectExtForces_emitted_inRange fexp fsqrt nearbyAgents s hN f hmem
  have hn1 : (s.advanceAndBuildIntForces noHook t).futureGeometry.noOfSpheres =
      s.futureGeometry.noOfSpheres := by
    rw [advanceAndBuildIntForces_noHook_eq]
  have hn3 : (s.collectExtForces fexp fsqrt nearbyAgents).futureGeometry.noOfSpheres =
      s.futureGeometry.noOfSpheres := (collectExtForces_counts fexp fsqrt nearbyAgents s).1
  refine ⟨?_, h1, h3, ?_⟩
  · intro advanceAgent
    refine ⟨(List.range (advanceAgent t s).futureGeometry.noOfSpheres).map
      (advanceAgent t s).drivingForce, ?_, ?_⟩
    · rw [advanceAndBuildIntForces_eq]
    · intro f hmem
      rw [(advanceAndBuildIntForces_counts advanceAgent t s).1]
      exact hint_of_mem_map_range _ _ (fun _ => rfl) f hmem
  · intro f hmem r hr
    have hin : 0 ≤ f.hint ∧ f.hint < (r.futureGeometry.noOfSpheres : Int) := by
      rcases hmem with hmem | hmem
      · have := h1 f hmem
        rw [hn1] at this
        rw [hr]
        exact this
      · have := h3 f hmem
        rw [hn3] at this
        rw [hr]
        exact this
    exact ⟨accumulate_of_inRange r f hin, by omega⟩

/-- C21, a concrete run: the resting agent (one sphere, empty ledger) in contact with a nucleus
whose pair is tied to sphere 0; the ledgers after phase 1 and after phase 3 are in range, and
the latter is not empty. -/
theorem C21_ledger_hints_in_range_witness :
    (restingAgent : NucleusAgent ℚ).forces = [] ∧
      (∀ pp ∈ ((restingAgent : NucleusAgent ℚ).collectExtForces (fun x => x) (fun x => x)
          [nucleusAt (-1)]).proximityPairs_toNuclei,
        0 ≤ pp.localHint ∧
          pp.localHint < ((restingAgent : NucleusAgent ℚ).futureGeometry.noOfSpheres : Int)) ∧
      LedgerInRange ((restingAgent : NucleusAgent ℚ).advanceAndBuildIntForces noHook 0) ∧
      LedgerInRange ((restingAgent : NucleusAgent ℚ).collectExtForces (fun x => x) (fun x => x)
        [nucleusAt (-1)]) ∧
      ((restingAgent : NucleusAgent ℚ).collectExtForces (fun x => x) (fun x => x)
        [nucleusAt (-1)]).forces ≠ [] := by
  have hN : ∀ pp ∈ ((restingAgent : NucleusAgent ℚ).collectExtForces (fun x => x) (fun x => x)
      [nucleusAt (-1)]).proximityPairs_toNuclei,
      0 ≤ pp.localHint ∧
        pp.localHint < ((restingAgent : NucleusAgent ℚ).futureGeometry.noOfSpheres : Int) := by
    intro pp hpp
    rw [collectExtForces_eq] at hpp
    have e := nucleiPairsOf_nucleusAt [(-1 : ℚ)]
    simp only [List.map_cons, List.map_nil] at e
    simp only [e, List.mem_singleton] at hpp
    subst hpp
    exact ⟨le_refl _, by decide⟩
  have h := C21_ledger_hints_in_range (fun x => x) (fun x => x) 0 [nucleusAt (-1)]
    (restingAgent : NucleusAgent ℚ) rfl hN
  refine ⟨rfl, hN, h.2.1, h.2.2.1, ?_⟩
  rw [collectExtForces_eq]
  simp [restingAgent, List.range_succ]

end NucleusAgent

end DrosoGen
